import Mathlib

/-!
# Portflux API: broker slice, repositories and validators

A shallow embedding of the broker vertical slice of the portfolio REST backend:
request models and their validators (`core/models/broker.go`), the broker
service (`core/services/broker.go`) and the postgres broker repository
(`infrastructure/postgres/broker.go`); and of the parts of the other slices that
differ from it: `CreateMany` of the user repository, the SELECT statements of the
holding repository, the INSERT and UPDATE statements of the repositories, the row
mapping of the crypto-currency repository, the validators of the other request
models, and the route tables and decoding handlers of the HTTP layer
(`app/handlers/broker.go`, `app/handlers/user.go`).

Conventions of the embedding

* A Go result `(T, error)` is a pair `T × Option Error`; `none` is the nil error,
  a nil slice is the empty list, the zero string is `""`.
* `time.Now().UTC()` is an explicit clock reading passed to the function.
* A collaborator behind an interface (the repository port for the service, the
  SQL connection for the repository) is a record of answers; every function also
  returns the list of calls it made to that collaborator, in order.
-/

namespace Portflux

/-! ## Errors -/

/-- Errors that `database/sql` and the driver hand back: the sentinel
`sql.ErrNoRows` and any other error, identified by its text. The wrappers of
`scv-go-tools` are not among them: only the program builds those. -/
inductive SqlError where
  | errNoRows
  | other (msg : String)
  deriving DecidableEq, Repr

/-- Go error values met in the slice: an error made by `fmt.Errorf` or
`errors.New`, an error coming from `database/sql`, and the two wrappers
`wrappers.NewValidationErr` and `wrappers.NewNonExistentErr` around an inner error. -/
inductive Error where
  | plain (msg : String)
  | sql (e : SqlError)
  | validation (inner : Error)
  | nonExistent (inner : Error)
  deriving DecidableEq, Repr

/-- The text of `sql.ErrNoRows` and of the other database errors. -/
def SqlError.message : SqlError → String
  | .errNoRows => "sql: no rows in result set"
  | .other msg => msg

/-- The result of `err.Error()`: a wrapper shows the text of the error it wraps. -/
def Error.message : Error → String
  | .plain msg => msg
  | .sql e => e.message
  | .validation inner => inner.message
  | .nonExistent inner => inner.message

/-- The test `errors.Is(err, wrappers.NonExistentErr)`: the error is a non-existent wrapper. -/
def Error.isNonExistent : Error → Bool
  | .nonExistent _ => true
  | _ => false

/-- The test `assert.IsType(t, wrappers.ValidationErr, err)`: the error is a validation wrapper. -/
def Error.isValidation : Error → Bool
  | .validation _ => true
  | _ => false

/-- The value `sql.ErrNoRows` as a Go error. -/
def sqlErrNoRows : Error := .sql .errNoRows

/-! ## Entities and models -/

/-- An instant of `time.Time`, as nanoseconds; the zero value is `0`. -/
structure Time where
  nanos : Int
  deriving DecidableEq, Repr

/-- The zero value of `time.Time`. -/
def Time.zero : Time := ⟨0⟩

/-- The struct `entities.Broker`. -/
structure Broker where
  BrokerID : String
  Extid : String
  Name : String
  Description : String
  Slug : String
  CreatedAt : Time
  UpdatedAt : Time
  deriving DecidableEq, Repr

/-- The struct `models.BrokerResp`. -/
structure BrokerResp where
  BrokerID : String
  Extid : String
  Name : String
  Description : String
  Slug : String
  CreatedAt : Time
  UpdatedAt : Time
  deriving DecidableEq, Repr

/-- The struct `models.CreateBrokerReq`. -/
structure CreateBrokerReq where
  BrokerID : String
  Extid : String
  Name : String
  Description : String
  Slug : String
  CreatedAt : Time
  UpdatedAt : Time
  deriving DecidableEq, Repr

/-- The struct `models.UpdateBrokerReq`. -/
structure UpdateBrokerReq where
  BrokerID : String
  Name : String
  Description : String
  CreatedAt : Time
  UpdatedAt : Time
  deriving DecidableEq, Repr

/-- The struct `models.CreationResp`. -/
structure CreationResp where
  InsertedID : String
  deriving DecidableEq, Repr

/-- The struct `models.MultiCreationResp`. -/
structure MultiCreationResp where
  InsertedIDs : List String
  deriving DecidableEq, Repr

/-- The conversion `entities.Broker(broker)` of a create request. -/
def CreateBrokerReq.toEntity (r : CreateBrokerReq) : Broker :=
  { BrokerID := r.BrokerID, Extid := r.Extid, Name := r.Name, Description := r.Description,
    Slug := r.Slug, CreatedAt := r.CreatedAt, UpdatedAt := r.UpdatedAt }

/-- The conversion `models.BrokerResp(entity)`. -/
def Broker.toResp (b : Broker) : BrokerResp :=
  { BrokerID := b.BrokerID, Extid := b.Extid, Name := b.Name, Description := b.Description,
    Slug := b.Slug, CreatedAt := b.CreatedAt, UpdatedAt := b.UpdatedAt }

/-- The conversion `entities.Broker(dbBroker)` of a response struct. -/
def BrokerResp.toEntity (b : BrokerResp) : Broker :=
  { BrokerID := b.BrokerID, Extid := b.Extid, Name := b.Name, Description := b.Description,
    Slug := b.Slug, CreatedAt := b.CreatedAt, UpdatedAt := b.UpdatedAt }

/-- The zero value of `models.BrokerResp`. -/
def BrokerResp.zero : BrokerResp :=
  { BrokerID := "", Extid := "", Name := "", Description := "", Slug := "",
    CreatedAt := Time.zero, UpdatedAt := Time.zero }

/-- The tail of every validator: no message gives nil, otherwise
`wrappers.NewValidationErr(fmt.Errorf(strings.Join(msgs, " | ")))`. -/
def validationResult (msgs : List String) : Option Error :=
  if msgs.length > 0 then some (.validation (.plain (String.intercalate " | " msgs))) else none

/-- The messages `CreateBrokerReq.Validate` collects, in the order of its three tests. -/
def CreateBrokerReq.msgs (req : CreateBrokerReq) : List String :=
  (if req.Extid = "" then ["external ID cannot be empty"] else []) ++
  (if req.Name = "" then ["name cannot be empty"] else []) ++
  (if req.Description = "" then ["description cannot be empty"] else [])

/-- The method `CreateBrokerReq.Validate`. -/
def CreateBrokerReq.Validate (req : CreateBrokerReq) : Option Error :=
  validationResult req.msgs

/-- The messages `UpdateBrokerReq.Validate` collects, in the order of its two tests. -/
def UpdateBrokerReq.msgs (req : UpdateBrokerReq) : List String :=
  (if req.Name = "" then ["name cannot be empty"] else []) ++
  (if req.Description = "" then ["description cannot be empty"] else [])

/-- The method `UpdateBrokerReq.Validate`. -/
def UpdateBrokerReq.Validate (req : UpdateBrokerReq) : Option Error :=
  validationResult req.msgs

/-! ## The repository port and the broker service -/

/-- A value of a filter map, `interface{}` in the source, printed with `%v`. -/
inductive FilterValue where
  | str (s : String)
  | int (i : Int)
  | bool (b : Bool)
  deriving DecidableEq, Repr

/-- A filter `map[string]interface{}`, as its entries in the order the map is iterated. -/
abbrev Filter := List (String × FilterValue)

/-- The port `ports.BrokerRepository` as the service sees it: one answer per method
and argument. `GetByID` answers with the entity or with the error. -/
structure BrokerRepository where
  Create : Broker → String × Option Error
  CreateMany : List Broker → List String × Option Error
  Get : Filter → Option Int → Option Int → List Broker × Option Error
  GetByID : String → Except Error Broker
  Update : String → Broker → Option Error
  Delete : String → Option Error

/-- A call the service makes to the repository, with its arguments. -/
inductive RepoCall where
  | create (b : Broker)
  | createMany (bs : List Broker)
  | get (filter : Filter) (skip take : Option Int)
  | getByID (id : String)
  | update (id : String) (b : Broker)
  | delete (id : String)
  deriving DecidableEq, Repr

/-- The entity `brokerService.Create` builds from a valid request: the slug is the
name and both timestamps are the clock reading. -/
def brokerService.createEntity (now : Time) (broker : CreateBrokerReq) : Broker :=
  let broker := { broker with Slug := broker.Name }
  let broker := { broker with CreatedAt := now }
  let broker := { broker with UpdatedAt := now }
  broker.toEntity

/-- The method `brokerService.Create`: the response, the error and the repository calls made. -/
def brokerService.Create (repo : BrokerRepository) (now : Time) (broker : CreateBrokerReq) :
    (CreationResp × Option Error) × List RepoCall :=
  match broker.Validate with
  | some err => ((⟨""⟩, some err), [])
  | none =>
    let entity := brokerService.createEntity now broker
    match repo.Create entity with
    | (_, some err) => ((⟨""⟩, some err), [.create entity])
    | (insertedID, none) => ((⟨insertedID⟩, none), [.create entity])

/-- The body of the loop of `brokerService.CreateMany` for one valid request: both
timestamps are set to the clock reading, nothing else changes. -/
def brokerService.createManyEntity (now : Time) (broker : CreateBrokerReq) : Broker :=
  let broker := { broker with CreatedAt := now }
  let broker := { broker with UpdatedAt := now }
  broker.toEntity

/-- The loop of `brokerService.CreateMany`: the first validation error stops it,
otherwise the entities are appended to `create` in order. -/
def brokerService.createManyLoop (now : Time) :
    List CreateBrokerReq → List Broker → Except Error (List Broker)
  | [], create => .ok create
  | broker :: rest, create =>
    match broker.Validate with
    | some err => .error err
    | none => brokerService.createManyLoop now rest (create ++ [brokerService.createManyEntity now broker])

/-- The method `brokerService.CreateMany`. -/
def brokerService.CreateMany (repo : BrokerRepository) (now : Time) (brokers : List CreateBrokerReq) :
    (MultiCreationResp × Option Error) × List RepoCall :=
  match brokerService.createManyLoop now brokers [] with
  | .error err => ((⟨[]⟩, some err), [])
  | .ok create =>
    match repo.CreateMany create with
    | (_, some err) => ((⟨[]⟩, some err), [.createMany create])
    | (insertedIDs, none) => ((⟨insertedIDs⟩, none), [.createMany create])

/-- The method `brokerService.GetAll`. -/
def brokerService.GetAll (repo : BrokerRepository) :
    (List BrokerResp × Option Error) × List RepoCall :=
  match repo.Get [] none none with
  | (_, some err) =>
    if err.isNonExistent then (([], none), [.get [] none none])
    else (([], some err), [.get [] none none])
  | (result, none) => ((result.map Broker.toResp, none), [.get [] none none])

/-- The method `brokerService.GetByID`. -/
def brokerService.GetByID (repo : BrokerRepository) (ID : String) :
    (BrokerResp × Option Error) × List RepoCall :=
  match repo.GetByID ID with
  | .error err =>
    if err.isNonExistent then
      ((BrokerResp.zero, some (.nonExistent (.plain ("ID " ++ ID ++ " not found")))), [.getByID ID])
    else ((BrokerResp.zero, some err), [.getByID ID])
  | .ok broker => ((broker.toResp, none), [.getByID ID])

/-- The method `brokerService.Update`: the stored broker is looked up first, then
name and description are taken from the request and the update time from the clock. -/
def brokerService.Update (repo : BrokerRepository) (now : Time) (ID : String) (broker : UpdateBrokerReq) :
    Option Error × List RepoCall :=
  match brokerService.GetByID repo ID with
  | ((_, some err), calls) => (some err, calls)
  | ((dbBroker, none), calls) =>
    let dbBroker := if broker.Name ≠ dbBroker.Name then { dbBroker with Name := broker.Name } else dbBroker
    let dbBroker :=
      if broker.Description ≠ dbBroker.Description then { dbBroker with Description := broker.Description }
      else dbBroker
    let dbBroker := { dbBroker with UpdatedAt := now }
    (repo.Update ID dbBroker.toEntity, calls ++ [.update ID dbBroker.toEntity])

/-- The method `brokerService.Delete`. -/
def brokerService.Delete (repo : BrokerRepository) (ID : String) : Option Error × List RepoCall :=
  match repo.Delete ID with
  | some err =>
    if err.isNonExistent then (some (.nonExistent (.plain ("ID " ++ ID ++ " not found"))), [.delete ID])
    else (some err, [.delete ID])
  | none => (none, [.delete ID])

/-! ## The SQL connection and the postgres broker repository -/

/-- An argument bound to a placeholder of a statement. -/
inductive SqlArg where
  | str (s : String)
  | time (t : Time)
  deriving DecidableEq, Repr

/-- A row of the broker table as the SELECT of the repository names its columns. -/
structure BrokerRow where
  brokerid : String
  extid : String
  name : String
  description : String
  slug : String
  created_at : Time
  updated_at : Time
  deriving DecidableEq, Repr

/-- A call the repository makes to the connection or to the transaction. `queryRow`
stands for `QueryRowContext` followed by the `Scan` of the returned id. -/
inductive DbCall where
  | beginTx
  | queryRow (q : String) (args : List SqlArg)
  | query (q : String)
  | rollback
  | commit
  deriving DecidableEq, Repr

/-- The behaviour of the database during one repository call. `scanID i q args` is
what the statement numbered `i` (from 0) answers when its single returned column is
scanned; a row delivered by `query` either scans or fails to scan. -/
structure SqlDB where
  beginTx : Option SqlError
  scanID : Nat → String → List SqlArg → Except SqlError String
  commit : Option SqlError
  query : String → Except SqlError (List (Except SqlError BrokerRow))

/-- The text of the INSERT statement of `brokerRepository.CreateMany`. -/
def brokerRepository.insertManyQuery : String :=
  "\n\t\tINSERT INTO broker (extid, name, description, slug, created_at, updated_at)\n\t\t\tVALUES ($1, $2, $3, $4, $5, $6, $7)\n\t\t\tRETURNING brokerid;"

/-- The arguments both INSERT statements bind, in order. -/
def brokerRepository.insertArgs (b : Broker) : List SqlArg :=
  [.str b.Extid, .str b.Name, .str b.Description, .str b.Slug, .time b.CreatedAt, .time b.UpdatedAt]

/-- The call one turn of the loop of `brokerRepository.CreateMany` makes for an entity. -/
def brokerRepository.insertCall (b : Broker) : DbCall :=
  .queryRow brokerRepository.insertManyQuery (brokerRepository.insertArgs b)

/-- The loop of `brokerRepository.CreateMany` followed by the commit: `i` is the
number of the next statement, `result` the ids collected and `calls` the calls made so far. -/
def brokerRepository.createManyLoop (db : SqlDB) :
    Nat → List Broker → List String → List DbCall → (List String × Option Error) × List DbCall
  | _, [], result, calls =>
    match db.commit with
    | some err => (([], some (.sql err)), calls ++ [.commit])
    | none => ((result, none), calls ++ [.commit])
  | i, b :: rest, result, calls =>
    match db.scanID i brokerRepository.insertManyQuery (brokerRepository.insertArgs b) with
    | .error err => (([], some (.sql err)), calls ++ [brokerRepository.insertCall b, .rollback])
    | .ok brokerID =>
      brokerRepository.createManyLoop db (i + 1) rest (result ++ [brokerID])
        (calls ++ [brokerRepository.insertCall b])

/-- The method `brokerRepository.CreateMany`. -/
def brokerRepository.CreateMany (db : SqlDB) (brokers : List Broker) :
    (List String × Option Error) × List DbCall :=
  match db.beginTx with
  | some err => (([], some (.sql err)), [.beginTx])
  | none => brokerRepository.createManyLoop db 0 brokers [] [.beginTx]

/-- The verb `%v` on a filter value. -/
def FilterValue.format : FilterValue → String
  | .str s => s
  | .int i => toString i
  | .bool b => toString b

/-- One turn of the filter loop of `brokerRepository.Get`. -/
def brokerRepository.whereStep (wh : String) (entry : String × FilterValue) : String :=
  let wh := if wh = "" then "WHERE" else wh ++ " AND"
  wh ++ " " ++ entry.1 ++ " = '" ++ entry.2.format ++ "'"

/-- The clause `where` of `brokerRepository.Get` just before the query text is built. -/
def brokerRepository.whereClause (filter : Filter) (skip take : Option Int) : String :=
  let wh := filter.foldl brokerRepository.whereStep ""
  let wh := match skip with
    | some s => wh ++ " OFFSET " ++ toString s
    | none => wh
  match take with
  | some t => wh ++ " LIMIT " ++ toString t
  | none => wh

/-- The query text of `brokerRepository.Get` around the clause. -/
def brokerRepository.getQuery (wh : String) : String :=
  "\n\tSELECT brokerid, extid, name, description, slug, created_at, updated_at\n\t    FROM broker "
    ++ wh ++ ";\n\t"

/-- The `rows.Scan` of `brokerRepository.Get`: the seven columns go to the seven fields in order. -/
def brokerRepository.scanBroker (r : BrokerRow) : Broker :=
  { BrokerID := r.brokerid, Extid := r.extid, Name := r.name, Description := r.description,
    Slug := r.slug, CreatedAt := r.created_at, UpdatedAt := r.updated_at }

/-- The row loop of `brokerRepository.Get`: a scan error stops it, otherwise the
scanned entity is appended to `brokers`. -/
def brokerRepository.scanRows :
    List (Except SqlError BrokerRow) → List Broker → Except SqlError (List Broker)
  | [], brokers => .ok brokers
  | .error err :: _, _ => .error err
  | .ok r :: rest, brokers => brokerRepository.scanRows rest (brokers ++ [brokerRepository.scanBroker r])

/-- The method `brokerRepository.Get`. -/
def brokerRepository.Get (db : SqlDB) (filter : Filter) (skip take : Option Int) :
    (List Broker × Option Error) × List DbCall :=
  let q := brokerRepository.getQuery (brokerRepository.whereClause filter skip take)
  match db.query q with
  | .error err => (([], some (.sql err)), [.query q])
  | .ok rows =>
    match brokerRepository.scanRows rows [] with
    | .error err => (([], some (.sql err)), [.query q])
    | .ok brokers =>
      if brokers.length < 1 then (([], some (.nonExistent sqlErrNoRows)), [.query q])
      else ((brokers, none), [.query q])

/-- The condition the filter clause holds for one entry, as the specification writes it. -/
def filterCondition (entry : String × FilterValue) : String :=
  entry.1 ++ " = '" ++ entry.2.format ++ "'"

/-! ## Inputs used by the examples -/

/-- A repository that stores everything under the id `new-id` and finds nothing. -/
def emptyRepository : BrokerRepository where
  Create := fun _ => ("new-id", none)
  CreateMany := fun bs => (bs.map (fun _ => "new-id"), none)
  Get := fun _ _ _ => ([], some (.nonExistent sqlErrNoRows))
  GetByID := fun _ => .error (.nonExistent sqlErrNoRows)
  Update := fun _ _ => none
  Delete := fun _ => none

/-- A repository whose every method fails with the plain error `repository-error`. -/
def failingRepository : BrokerRepository where
  Create := fun _ => ("", some (.plain "repository-error"))
  CreateMany := fun _ => ([], some (.plain "repository-error"))
  Get := fun _ _ _ => ([], some (.plain "repository-error"))
  GetByID := fun _ => .error (.plain "repository-error")
  Update := fun _ _ => some (.plain "repository-error")
  Delete := fun _ => some (.plain "repository-error")

/-- The broker the service tests store. -/
def storedBroker : Broker :=
  { BrokerID := "test-id", Extid := "1", Name := "test", Description := "test", Slug := "test",
    CreatedAt := ⟨5⟩, UpdatedAt := ⟨5⟩ }

/-- A repository that holds `storedBroker` and nothing else. -/
def singleRepository : BrokerRepository where
  Create := fun _ => ("new-id", none)
  CreateMany := fun bs => (bs.map (fun _ => "new-id"), none)
  Get := fun _ _ _ => ([storedBroker], none)
  GetByID := fun id => if id = "test-id" then .ok storedBroker else .error (.nonExistent sqlErrNoRows)
  Update := fun id _ => if id = "test-id" then none else some (.nonExistent sqlErrNoRows)
  Delete := fun id => if id = "test-id" then none else some (.nonExistent sqlErrNoRows)

/-- The valid request of the service tests. -/
def validReq : CreateBrokerReq :=
  { BrokerID := "", Extid := "1", Name := "test", Description := "test", Slug := "",
    CreatedAt := Time.zero, UpdatedAt := Time.zero }

/-- The invalid request of the service tests: every validated field is empty. -/
def invalidReq : CreateBrokerReq :=
  { BrokerID := "", Extid := "", Name := "", Description := "", Slug := "",
    CreatedAt := Time.zero, UpdatedAt := Time.zero }

/-- The validation error of `invalidReq`. -/
def invalidReqErr : Error :=
  .validation (.plain "external ID cannot be empty | name cannot be empty | description cannot be empty")

/-- A response carries the fields of an entity, one by one. -/
def BrokerResp.sameFields (r : BrokerResp) (b : Broker) : Prop :=
  r.BrokerID = b.BrokerID ∧ r.Extid = b.Extid ∧ r.Name = b.Name ∧ r.Description = b.Description ∧
    r.Slug = b.Slug ∧ r.CreatedAt = b.CreatedAt ∧ r.UpdatedAt = b.UpdatedAt

/-- The empty update request of the service tests. -/
def emptyUpdateReq : UpdateBrokerReq :=
  { BrokerID := "", Name := "", Description := "", CreatedAt := Time.zero, UpdatedAt := Time.zero }

/-- A database where every statement succeeds: ids are `id-0`, `id-1`, ... and the
broker table is empty. -/
def healthyDB : SqlDB where
  beginTx := none
  scanID := fun i _ _ => .ok ("id-" ++ toString i)
  commit := none
  query := fun _ => .ok []

/-- A database whose second statement (number 1) of a transaction fails. -/
def secondInsertFailsDB : SqlDB where
  beginTx := none
  scanID := fun i _ _ => if i = 1 then .error (.other "insert error") else .ok ("id-" ++ toString i)
  commit := none
  query := fun _ => .error (.other "select error")

/-- A database that cannot open a transaction. -/
def beginFailsDB : SqlDB where
  beginTx := some (.other "begin error")
  scanID := fun i _ _ => .ok ("id-" ++ toString i)
  commit := none
  query := fun _ => .error (.other "select error")

/-- A database that accepts every statement and fails to commit. -/
def commitFailsDB : SqlDB where
  beginTx := none
  scanID := fun i _ _ => .ok ("id-" ++ toString i)
  commit := some (.other "commit error")
  query := fun _ => .error (.other "select error")

/-- The row of `storedBroker`. -/
def storedRow : BrokerRow :=
  { brokerid := "test-id", extid := "1", name := "test", description := "test", slug := "test",
    created_at := ⟨5⟩, updated_at := ⟨5⟩ }

/-- A database whose broker table holds the one row `storedRow`. -/
def oneRowDB : SqlDB where
  beginTx := none
  scanID := fun i _ _ => .ok ("id-" ++ toString i)
  commit := none
  query := fun _ => .ok [.ok storedRow]

/-- The answer of the database to the statement numbered `i` inserting `b`. -/
def brokerRepository.insertAnswer (db : SqlDB) (i : Nat) (b : Broker) : Except SqlError String :=
  db.scanID i brokerRepository.insertManyQuery (brokerRepository.insertArgs b)

/-! ## Statements outside a transaction: GetByID, Update and Delete of the broker repository -/

/-- What `result.RowsAffected()` reports after `ExecContext`: the count and its error. -/
structure ExecResult where
  rows : Int
  err : Option SqlError
  deriving DecidableEq, Repr

/-- The answers of the connection to one statement outside a transaction.
`queryRowScan` is `QueryRowContext` followed by the `Scan` of the seven broker columns:
the scanned row, or the error of the query or of the scan (`sql.ErrNoRows` when the
query yields no row). The field `run` is `ExecContext`. -/
structure SqlConn where
  queryRowScan : String → List SqlArg → Except SqlError BrokerRow
  run : String → List SqlArg → Except SqlError ExecResult

/-- The test `errors.Is(err, sql.ErrNoRows)` on an error of the database. -/
def SqlError.isErrNoRows : SqlError → Bool
  | .errNoRows => true
  | .other _ => false

/-- The text of the SELECT statement of `brokerRepository.GetByID`. -/
def brokerRepository.getByIDQuery : String :=
  "\n    SELECT brokerid, extid, name, description, slug, created_at, updated_at\n        FROM broker WHERE brokerid = $1;\n    "

/-- The method `brokerRepository.GetByID`: the entity (nil is `none`) and the error. -/
def brokerRepository.GetByID (conn : SqlConn) (ID : String) : Option Broker × Option Error :=
  match conn.queryRowScan brokerRepository.getByIDQuery [.str ID] with
  | .error err =>
    if err.isErrNoRows then (none, some (.nonExistent (.sql err))) else (none, some (.sql err))
  | .ok r => (some (brokerRepository.scanBroker r), none)

/-- The text of the UPDATE statement of `brokerRepository.Update`. -/
def brokerRepository.updateQuery : String :=
  "\n\tUPDATE broker set name=$1, description=$2, slug=$3, updated_at=$4\n\t    WHERE brokerid=$5;\n\t"

/-- The arguments `brokerRepository.Update` binds, in order. -/
def brokerRepository.updateArgs (ID : String) (b : Broker) : List SqlArg :=
  [.str b.Name, .str b.Description, .str b.Slug, .time b.UpdatedAt, .str ID]

/-- The method `brokerRepository.Update`. An error of `RowsAffected` is only printed:
the count that came with it is tested all the same. -/
def brokerRepository.Update (conn : SqlConn) (ID : String) (b : Broker) : Option Error :=
  match conn.run brokerRepository.updateQuery (brokerRepository.updateArgs ID b) with
  | .error err => some (.sql err)
  | .ok result =>
    if result.rows < 1 then some (.nonExistent sqlErrNoRows) else none

/-- The text of the DELETE statement of `brokerRepository.Delete`. -/
def brokerRepository.deleteQuery : String := "DELETE FROM broker WHERE brokerid=$1;"

/-- The method `brokerRepository.Delete`. An error of `RowsAffected` is returned. -/
def brokerRepository.Delete (conn : SqlConn) (ID : String) : Option Error :=
  match conn.run brokerRepository.deleteQuery [.str ID] with
  | .error err => some (.sql err)
  | .ok result =>
    match result.err with
    | some err => some (.sql err)
    | none => if result.rows < 1 then some (.nonExistent sqlErrNoRows) else none

/-- A connection to a table that holds `storedRow`: one row is found and one row affected. -/
def foundConn : SqlConn where
  queryRowScan := fun _ _ => .ok storedRow
  run := fun _ _ => .ok ⟨1, none⟩

/-- A connection to an empty table: no row is found and no row affected. -/
def missingConn : SqlConn where
  queryRowScan := fun _ _ => .error .errNoRows
  run := fun _ _ => .ok ⟨0, none⟩

/-- A connection on which every statement fails. -/
def brokenConn : SqlConn where
  queryRowScan := fun _ _ => .error (.other "select error")
  run := fun _ _ => .error (.other "update error")

/-! ## The postgres user repository: CreateMany -/

/-- The struct `entities.User`. -/
structure User where
  UserID : String
  Firstname : String
  Lastname : String
  Email : String
  PasswordHash : String
  CreatedAt : Time
  UpdatedAt : Time
  deriving DecidableEq, Repr

/-- The text of the INSERT statement of `userRepository.CreateMany`. -/
def userRepository.insertManyQuery : String :=
  "\n\t\tINSERT INTO \"user\" (firstname, lastname, email, password_hash, created_at, updated_at)\n\t\t\tVALUES ($1, $2, $3, $4, $5, $6)\n\t\t\tRETURNING userid;"

/-- The arguments the INSERT statement of `userRepository.CreateMany` binds, in order. -/
def userRepository.insertArgs (u : User) : List SqlArg :=
  [.str u.Firstname, .str u.Lastname, .str u.Email, .str u.PasswordHash, .time u.CreatedAt,
    .time u.UpdatedAt]

/-- The call one turn of the loop of `userRepository.CreateMany` makes for an entity. -/
def userRepository.insertCall (u : User) : DbCall :=
  .queryRow userRepository.insertManyQuery (userRepository.insertArgs u)

/-- The answer of the database to the statement numbered `i` inserting `u`. -/
def userRepository.insertAnswer (db : SqlDB) (i : Nat) (u : User) : Except SqlError String :=
  db.scanID i userRepository.insertManyQuery (userRepository.insertArgs u)

/-- The loop of `userRepository.CreateMany` followed by the commit: `i` is the number
of the next statement, `result` the ids collected and `calls` the calls made so far. -/
def userRepository.createManyLoop (db : SqlDB) :
    Nat → List User → List String → List DbCall → (List String × Option Error) × List DbCall
  | _, [], result, calls =>
    match db.commit with
    | some err => (([], some (.sql err)), calls ++ [.commit])
    | none => ((result, none), calls ++ [.commit])
  | i, u :: rest, result, calls =>
    match db.scanID i userRepository.insertManyQuery (userRepository.insertArgs u) with
    | .error err => (([], some (.sql err)), calls ++ [userRepository.insertCall u, .rollback])
    | .ok userID =>
      userRepository.createManyLoop db (i + 1) rest (result ++ [userID])
        (calls ++ [userRepository.insertCall u])

/-- The method `userRepository.CreateMany`. -/
def userRepository.CreateMany (db : SqlDB) (users : List User) :
    (List String × Option Error) × List DbCall :=
  match db.beginTx with
  | some err => (([], some (.sql err)), [.beginTx])
  | none => userRepository.createManyLoop db 0 users [] [.beginTx]

/-- A first user to insert. -/
def userOne : User :=
  { UserID := "", Firstname := "test1", Lastname := "user1", Email := "test1@test.com",
    PasswordHash := "hash1", CreatedAt := ⟨7⟩, UpdatedAt := ⟨7⟩ }

/-- A second user to insert. -/
def userTwo : User :=
  { UserID := "", Firstname := "test2", Lastname := "user2", Email := "test2@test.com",
    PasswordHash := "hash2", CreatedAt := ⟨7⟩, UpdatedAt := ⟨7⟩ }

/-! ## The postgres holding repository: the SELECT statements -/

/-- The query text of `holdingRepository.Get` around the clause. -/
def holdingRepository.getQuery (wh : String) : String :=
  "\n\tSELECT holdingid,portfolioidbrokerid,extid,name,description,slug,trade_date,trade_type,quantity,share_price,exchange_rate,exchange_currencyid,brokerage_unit_price,brokerage_currency,created_at,updated_at\n\t    FROM holding "
    ++ wh ++ ";\n\t"

/-- The text of the SELECT statement of `holdingRepository.GetByID`. -/
def holdingRepository.getByIDQuery : String :=
  "\n    SELECT holdingid,portfolioidbrokerid,extid,name,description,slug,trade_date,trade_type,quantity,share_price,exchange_rate,exchange_currencyid,brokerage_unit_price,brokerage_currency,created_at,updated_at\n        FROM holding WHERE holdingid = $1;\n    "

/-- The fields of `entities.Holding` whose addresses `Get` and `GetByID` pass to
`Scan`, in the order of the call. -/
def holdingRepository.scanDest : List String :=
  ["HoldingID", "PortfolioID", "BrokerID", "Extid", "Name", "Description", "Slug", "TradeDate",
    "TradeType", "Quantity", "SharePrice", "ExchangeRate", "ExchangeCurrencyID",
    "BrokerageUnitPrice", "BrokerageCurrency", "CreatedAt", "UpdatedAt"]

/-- The seventeen columns of a holding, each named as the field it belongs to. -/
def holdingColumns : List String :=
  ["holdingid", "portfolioid", "brokerid", "extid", "name", "description", "slug", "trade_date",
    "trade_type", "quantity", "share_price", "exchange_rate", "exchange_currencyid",
    "brokerage_unit_price", "brokerage_currency", "created_at", "updated_at"]

/-- The pieces of a text between the occurrences of a separator. -/
def splitOnChar (sep : Char) : List Char → List (List Char)
  | [] => [[]]
  | c :: cs =>
    match splitOnChar sep cs with
    | [] => if c = sep then [[]] else [[c]]
    | h :: t => if c = sep then [] :: h :: t else (c :: h) :: t

/-- A text without the white space at its two ends. -/
def trimChars (cs : List Char) : List Char :=
  ((cs.dropWhile Char.isWhitespace).reverse.dropWhile Char.isWhitespace).reverse

/-- The rest of a text after the first occurrence of a word, when the word occurs. -/
def afterWord (w : List Char) : List Char → Option (List Char)
  | [] => none
  | c :: cs => if w.isPrefixOf (c :: cs) then some ((c :: cs).drop w.length) else afterWord w cs

/-- The part of a text before the first occurrence of a word. -/
def beforeWord (w : List Char) : List Char → List Char
  | [] => []
  | c :: cs => if w.isPrefixOf (c :: cs) then [] else c :: beforeWord w cs

/-- The column names of a SELECT statement: the comma separated names between
`SELECT` and `FROM`. -/
def selectColumns (q : String) : List String :=
  match afterWord "SELECT".toList q.toList with
  | none => []
  | some rest => (splitOnChar ',' (beforeWord "FROM".toList rest)).map (fun cs => String.mk (trimChars cs))

/-- The arity test of `Rows.Scan` in `database/sql`: the number of destinations has to
be the number of columns of the result. -/
def scanArityError (ncols ndest : Nat) : Option SqlError :=
  if ndest ≠ ncols then
    some (.other ("sql: expected " ++ toString ncols ++ " destination arguments in Scan, not "
      ++ toString ndest))
  else none

/-! ## Holding and transaction requests and their validators -/

/-- The struct `models.CreateHoldingReq`. -/
structure CreateHoldingReq where
  HoldingID : String
  PortfolioID : String
  BrokerID : String
  Extid : String
  Name : String
  Description : String
  Slug : String
  TradeDate : Time
  TradeType : String
  Quantity : Int
  SharePrice : Int
  ExchangeRate : Int
  ExchangeCurrencyID : String
  BrokerageUnitPrice : Int
  BrokerageCurrency : String
  CreatedAt : Time
  UpdatedAt : Time
  deriving DecidableEq, Repr

/-- The messages `CreateHoldingReq.Validate` collects, in the order of its twelve tests. -/
def CreateHoldingReq.msgs (req : CreateHoldingReq) : List String :=
  (if req.PortfolioID = "" then ["portfolio id cannot be empty"] else []) ++
  (if req.BrokerID = "" then ["broker id cannot be empty"] else []) ++
  (if req.Extid = "" then ["external id cannot be empty"] else []) ++
  (if req.Name = "" then ["name cannot be empty"] else []) ++
  (if req.TradeDate = Time.zero then ["trade date cannot be empty"] else []) ++
  (if req.TradeType = "" then ["trade type cannot be empty"] else []) ++
  (if req.Quantity = 0 then ["quantity cannot be zero"] else []) ++
  (if req.SharePrice = 0 then ["share price cannot be zero"] else []) ++
  (if req.ExchangeRate = 0 then ["exchange rate cannot be zero"] else []) ++
  (if req.ExchangeCurrencyID = "" then ["exchange currency id cannot be empty"] else []) ++
  (if req.BrokerageUnitPrice = 0 then ["brokerage unit price cannot be zero"] else []) ++
  (if req.BrokerageCurrency = "" then ["brokerage currency cannot be empty"] else [])

/-- The method `CreateHoldingReq.Validate`. -/
def CreateHoldingReq.Validate (req : CreateHoldingReq) : Option Error :=
  validationResult req.msgs

/-- The struct `models.UpdateHoldingReq`. -/
structure UpdateHoldingReq where
  HoldingID : String
  PortfolioID : String
  BrokerID : String
  Extid : String
  Name : String
  Description : String
  Slug : String
  TradeDate : Time
  TradeType : String
  Quantity : Int
  SharePrice : Int
  ExchangeRate : Int
  ExchangeCurrencyID : String
  BrokerageUnitPrice : Int
  BrokerageCurrency : String
  CreatedAt : Time
  UpdatedAt : Time
  deriving DecidableEq, Repr

/-- The messages `UpdateHoldingReq.Validate` collects, in the order of its eleven tests. -/
def UpdateHoldingReq.msgs (req : UpdateHoldingReq) : List String :=
  (if req.PortfolioID = "" then ["portfolio id cannot be empty"] else []) ++
  (if req.BrokerID = "" then ["broker id cannot be empty"] else []) ++
  (if req.Name = "" then ["name cannot be empty"] else []) ++
  (if req.TradeDate = Time.zero then ["trade date cannot be empty"] else []) ++
  (if req.TradeType = "" then ["trade type cannot be empty"] else []) ++
  (if req.Quantity = 0 then ["quantity cannot be zero"] else []) ++
  (if req.SharePrice = 0 then ["share price cannot be zero"] else []) ++
  (if req.ExchangeRate = 0 then ["exchange rate cannot be zero"] else []) ++
  (if req.ExchangeCurrencyID = "" then ["exchange currency id cannot be empty"] else []) ++
  (if req.BrokerageUnitPrice = 0 then ["brokerage unit price cannot be zero"] else []) ++
  (if req.BrokerageCurrency = "" then ["brokerage currency cannot be empty"] else [])

/-- The method `UpdateHoldingReq.Validate`. -/
def UpdateHoldingReq.Validate (req : UpdateHoldingReq) : Option Error :=
  validationResult req.msgs

/-- The struct `models.CreateTransactionReq`; `Quantity` is an `int16`. -/
structure CreateTransactionReq where
  TransactionID : String
  StockID : String
  CryptocurrencyID : String
  Quantity : Int
  TransactionPrice : String
  TransactionDate : Time
  CreatedAt : Time
  UpdatedAt : Time
  deriving DecidableEq, Repr

/-- The messages `CreateTransactionReq.Validate` collects, in the order of its four tests. -/
def CreateTransactionReq.msgs (req : CreateTransactionReq) : List String :=
  (if req.StockID = "" ∧ req.CryptocurrencyID = "" then
    ["either stock id or cryptocurrency id must be provided"] else []) ++
  (if req.Quantity = 0 then ["quantity cannot be zero"] else []) ++
  (if req.TransactionPrice = "" then ["transaction price cannot be empty"] else []) ++
  (if req.TransactionDate = Time.zero then ["transaction date cannot be empty"] else [])

/-- The method `CreateTransactionReq.Validate`. -/
def CreateTransactionReq.Validate (req : CreateTransactionReq) : Option Error :=
  validationResult req.msgs

/-- The rules of the holding create validator as the specification lists them: for
each rule, whether the request violates it, and its message. -/
def CreateHoldingReq.rules (req : CreateHoldingReq) : List (Bool × String) :=
  [(decide (req.PortfolioID = ""), "portfolio id cannot be empty"),
   (decide (req.BrokerID = ""), "broker id cannot be empty"),
   (decide (req.Extid = ""), "external id cannot be empty"),
   (decide (req.Name = ""), "name cannot be empty"),
   (decide (req.TradeDate = Time.zero), "trade date cannot be empty"),
   (decide (req.TradeType = ""), "trade type cannot be empty"),
   (decide (req.Quantity = 0), "quantity cannot be zero"),
   (decide (req.SharePrice = 0), "share price cannot be zero"),
   (decide (req.ExchangeRate = 0), "exchange rate cannot be zero"),
   (decide (req.ExchangeCurrencyID = ""), "exchange currency id cannot be empty"),
   (decide (req.BrokerageUnitPrice = 0), "brokerage unit price cannot be zero"),
   (decide (req.BrokerageCurrency = ""), "brokerage currency cannot be empty")]

/-- The messages of the violated rules, in the order of the rules. -/
def violatedMessages (rules : List (Bool × String)) : List String :=
  (rules.filter (fun r => r.1)).map (fun r => r.2)

/-- The create request with the fields of an update request and the given external id. -/
def UpdateHoldingReq.toCreate (u : UpdateHoldingReq) (extid : String) : CreateHoldingReq :=
  { HoldingID := u.HoldingID, PortfolioID := u.PortfolioID, BrokerID := u.BrokerID,
    Extid := extid, Name := u.Name, Description := u.Description, Slug := u.Slug,
    TradeDate := u.TradeDate, TradeType := u.TradeType, Quantity := u.Quantity,
    SharePrice := u.SharePrice, ExchangeRate := u.ExchangeRate,
    ExchangeCurrencyID := u.ExchangeCurrencyID, BrokerageUnitPrice := u.BrokerageUnitPrice,
    BrokerageCurrency := u.BrokerageCurrency, CreatedAt := u.CreatedAt, UpdatedAt := u.UpdatedAt }

/-- The zero value of `models.CreateHoldingReq`. -/
def CreateHoldingReq.zero : CreateHoldingReq :=
  { HoldingID := "", PortfolioID := "", BrokerID := "", Extid := "", Name := "", Description := "",
    Slug := "", TradeDate := Time.zero, TradeType := "", Quantity := 0, SharePrice := 0,
    ExchangeRate := 0, ExchangeCurrencyID := "", BrokerageUnitPrice := 0, BrokerageCurrency := "",
    CreatedAt := Time.zero, UpdatedAt := Time.zero }

/-- The valid holding request of the model tests; the trade date is some non-zero instant. -/
def validHoldingReq : CreateHoldingReq :=
  { HoldingID := "", PortfolioID := "PortfolioID", BrokerID := "BrokerID", Extid := "Extid",
    Name := "Name", Description := "Description", Slug := "Slug", TradeDate := ⟨1691020800⟩,
    TradeType := "TradeType", Quantity := 1, SharePrice := 1, ExchangeRate := 1,
    ExchangeCurrencyID := "czk", BrokerageUnitPrice := 10, BrokerageCurrency := "czk",
    CreatedAt := Time.zero, UpdatedAt := Time.zero }

/-- The valid holding update request of the model tests. -/
def validUpdateHoldingReq : UpdateHoldingReq :=
  { HoldingID := "", PortfolioID := "PortfolioID", BrokerID := "BrokerID", Extid := "Extid",
    Name := "Name", Description := "Description", Slug := "Slug", TradeDate := ⟨1691020800⟩,
    TradeType := "TradeType", Quantity := 1, SharePrice := 1, ExchangeRate := 1,
    ExchangeCurrencyID := "czk", BrokerageUnitPrice := 10, BrokerageCurrency := "czk",
    CreatedAt := Time.zero, UpdatedAt := Time.zero }

/-- The zero value of `models.UpdateHoldingReq`. -/
def UpdateHoldingReq.zero : UpdateHoldingReq :=
  { HoldingID := "", PortfolioID := "", BrokerID := "", Extid := "", Name := "", Description := "",
    Slug := "", TradeDate := Time.zero, TradeType := "", Quantity := 0, SharePrice := 0,
    ExchangeRate := 0, ExchangeCurrencyID := "", BrokerageUnitPrice := 0, BrokerageCurrency := "",
    CreatedAt := Time.zero, UpdatedAt := Time.zero }

/-- The valid transaction request of the model tests. -/
def validTransactionReq : CreateTransactionReq :=
  { TransactionID := "", StockID := "StockID", CryptocurrencyID := "CryptocurrencyID",
    Quantity := 10, TransactionPrice := "TransactionPrice", TransactionDate := ⟨1691020800⟩,
    CreatedAt := Time.zero, UpdatedAt := Time.zero }

/-- The zero value of `models.CreateTransactionReq`. -/
def CreateTransactionReq.zero : CreateTransactionReq :=
  { TransactionID := "", StockID := "", CryptocurrencyID := "", Quantity := 0,
    TransactionPrice := "", TransactionDate := Time.zero, CreatedAt := Time.zero,
    UpdatedAt := Time.zero }

/-! ## The HTTP layer: route tables and the handlers that decode a body -/

/-- The part of `config.Config` the route tables read. -/
structure Config where
  JWTSecret : String
  deriving DecidableEq, Repr

/-- The HTTP methods of the route tables. -/
inductive Method where
  | GET
  | POST
  | PATCH
  | DELETE
  deriving DecidableEq, Repr

/-- A value of `jwt.MapClaims` as the route tables write it: claim names with boolean values. -/
abbrev MapClaims := List (String × Bool)

/-- An `http.Handler` of a route table: a handler of the package, named by its
constructor function, or `middlewares.JWT(next, secret, claims)` around a handler. -/
inductive Handler where
  | plain (name : String)
  | jwt (next : Handler) (secret : String) (claims : MapClaims)
  deriving DecidableEq, Repr

/-- One `r.Handle(path, handler).Methods(method)` of a route table. -/
structure Route where
  path : String
  handler : Handler
  method : Method
  deriving DecidableEq, Repr

/-- The routes `SetBrokerRoutes` registers, in order. -/
def SetBrokerRoutes (cfg : Config) : List Route :=
  [⟨"/v1/broker", .plain "createBroker", .POST⟩,
   ⟨"/v1/broker/many", .plain "createManyBrokers", .POST⟩,
   ⟨"/v1/broker", .jwt (.plain "getAllBrokers") cfg.JWTSecret [], .GET⟩,
   ⟨"/v1/broker/slug/{slug}", .jwt (.plain "getBrokerBySlug") cfg.JWTSecret [], .GET⟩,
   ⟨"/v1/broker/{id}", .jwt (.plain "getBrokerByID") cfg.JWTSecret [], .GET⟩,
   ⟨"/v1/broker/{id}", .jwt (.plain "updateBroker") cfg.JWTSecret [], .PATCH⟩,
   ⟨"/v1/broker/{id}", .jwt (.plain "deleteBroker") cfg.JWTSecret [("admin", true)], .DELETE⟩]

/-- The routes `SetUserRoutes` registers, in order. -/
def SetUserRoutes (cfg : Config) : List Route :=
  [⟨"/v1/user/login", .plain "loginUser", .POST⟩,
   ⟨"/v1/user", .plain "createUser", .POST⟩,
   ⟨"/v1/user/many", .plain "createManyUsers", .POST⟩,
   ⟨"/v1/user", .jwt (.plain "getAllUsers") cfg.JWTSecret [], .GET⟩,
   ⟨"/v1/user/email/{email}", .jwt (.plain "getUserByEmail") cfg.JWTSecret [], .GET⟩,
   ⟨"/v1/user/{id}", .jwt (.plain "getUserByID") cfg.JWTSecret [], .GET⟩,
   ⟨"/v1/user/{id}", .jwt (.plain "updateUser") cfg.JWTSecret [], .PATCH⟩,
   ⟨"/v1/user/{id}", .jwt (.plain "deleteUser") cfg.JWTSecret [("admin", true)], .DELETE⟩]

/-- A handler that is not behind the JWT middleware: it answers a request without a token. -/
def Handler.isOpen : Handler → Bool
  | .plain _ => true
  | .jwt _ _ _ => false

/-- The port `ports.BrokerService` as the three handlers that decode a body see it. -/
structure BrokerService where
  Create : CreateBrokerReq → CreationResp × Option Error
  CreateMany : List CreateBrokerReq → MultiCreationResp × Option Error
  Update : String → UpdateBrokerReq → Option Error

/-- A call a handler makes to the service, with its arguments. -/
inductive ServiceCall where
  | create (b : CreateBrokerReq)
  | createMany (bs : List CreateBrokerReq)
  | update (id : String) (b : UpdateBrokerReq)
  deriving DecidableEq, Repr

/-- What a handler writes: `utils.ResponseError(w, r, body, err)` or
`utils.ResponseJSON(w, r, body, status, payload)`. -/
inductive Response (α : Type) where
  | error (body : String) (err : Error)
  | json (body : String) (status : Nat) (payload : α)
  deriving Repr

/-- The handler `createBroker`. `read` is the result of `io.ReadAll(r.Body)` and
`decode` is `json.Unmarshal` into a `CreateBrokerReq`: the request or the decoder's error. -/
def createBroker (s : BrokerService) (decode : String → Except Error CreateBrokerReq)
    (read : String × Option Error) : Response CreationResp × List ServiceCall :=
  match read with
  | (body, some err) => (.error body err, [])
  | (body, none) =>
    match decode body with
    | .error err => (.error body err, [])
    | .ok broker =>
      match s.Create broker with
      | (_, some err) => (.error body err, [.create broker])
      | (result, none) => (.json body 201 result, [.create broker])

/-- The handler `createManyBrokers`. -/
def createManyBrokers (s : BrokerService) (decode : String → Except Error (List CreateBrokerReq))
    (read : String × Option Error) : Response MultiCreationResp × List ServiceCall :=
  match read with
  | (body, some err) => (.error body err, [])
  | (body, none) =>
    match decode body with
    | .error err => (.error body err, [])
    | .ok brokers =>
      match s.CreateMany brokers with
      | (_, some err) => (.error body err, [.createMany brokers])
      | (result, none) => (.json body 201 result, [.createMany brokers])

/-- The handler `updateBroker`; `id` is the path variable `params["id"]`. -/
def updateBroker (s : BrokerService) (decode : String → Except Error UpdateBrokerReq)
    (id : String) (read : String × Option Error) : Response Unit × List ServiceCall :=
  match read with
  | (body, some err) => (.error body err, [])
  | (body, none) =>
    match decode body with
    | .error err => (.error body err, [])
    | .ok broker =>
      match s.Update id broker with
      | some err => (.error body err, [.update id broker])
      | none => (.json body 200 (), [.update id broker])

/-- A service that accepts everything. -/
def acceptingService : BrokerService where
  Create := fun _ => (⟨"new-id"⟩, none)
  CreateMany := fun bs => (⟨bs.map (fun _ => "new-id")⟩, none)
  Update := fun _ _ => none

/-- The invalid body of the handler test. -/
def invalidBody : String := "\x7b\"Name\":invalid-type\x7d"

/-- A decoder that rejects every body with the error of the handler test. -/
def rejectAll (α : Type) : String → Except Error α :=
  fun _ => .error (.plain "invalid character 'i' looking for beginning of value")

/-! ## The broker service: lookup by slug -/

/-- The method `brokerService.GetBySlug`. The result is `none` when the access
`result[0]` is out of range, which panics. -/
def brokerService.GetBySlug (repo : BrokerRepository) (slug : String) :
    Option ((BrokerResp × Option Error) × List RepoCall) :=
  let filter : Filter := [("slug", .str slug)]
  match repo.Get filter none none with
  | (_, some err) =>
    if err.isNonExistent then
      some ((BrokerResp.zero, some (.nonExistent (.plain ("slug " ++ slug ++ " not found")))),
        [.get filter none none])
    else some ((BrokerResp.zero, some err), [.get filter none none])
  | (result, none) =>
    match result[0]? with
    | none => none
    | some first => some ((first.toResp, none), [.get filter none none])

/-- The update request of the service test. -/
def validUpdateReq : UpdateBrokerReq :=
  { BrokerID := "test-id", Name := "new name", Description := "new description",
    CreatedAt := Time.zero, UpdatedAt := Time.zero }

/-! ## The remaining request models and their validators -/

/-- The struct `models.CreateCryptoCurrencyReq`. -/
structure CreateCryptoCurrencyReq where
  CryptoCurrencyID : String
  HoldingID : String
  Symbol : String
  Name : String
  CreatedAt : Time
  UpdatedAt : Time
  deriving DecidableEq, Repr

/-- The messages `CreateCryptoCurrencyReq.Validate` collects, in the order of its tests. -/
def CreateCryptoCurrencyReq.msgs (req : CreateCryptoCurrencyReq) : List String :=
  (if req.Symbol = "" then ["symbol cannot be empty"] else []) ++
  (if req.Name = "" then ["name cannot be empty"] else [])

/-- The method `CreateCryptoCurrencyReq.Validate`. -/
def CreateCryptoCurrencyReq.Validate (req : CreateCryptoCurrencyReq) : Option Error :=
  validationResult req.msgs

/-- The struct `models.UpdateCryptoCurrencyReq`. -/
structure UpdateCryptoCurrencyReq where
  CryptoCurrencyID : String
  HoldingID : String
  Symbol : String
  Name : String
  CreatedAt : Time
  UpdatedAt : Time
  deriving DecidableEq, Repr

/-- The messages `UpdateCryptoCurrencyReq.Validate` collects, in the order of its tests. -/
def UpdateCryptoCurrencyReq.msgs (req : UpdateCryptoCurrencyReq) : List String :=
  (if req.Symbol = "" then ["symbol cannot be empty"] else []) ++
  (if req.Name = "" then ["name cannot be empty"] else [])

/-- The method `UpdateCryptoCurrencyReq.Validate`. -/
def UpdateCryptoCurrencyReq.Validate (req : UpdateCryptoCurrencyReq) : Option Error :=
  validationResult req.msgs

/-- The struct `models.CreateCurrencyReq`. -/
structure CreateCurrencyReq where
  CurrencyID : String
  Code : String
  Name : String
  Symbol : String
  CreatedAt : Time
  UpdatedAt : Time
  deriving DecidableEq, Repr

/-- The messages `CreateCurrencyReq.Validate` collects, in the order of its tests. -/
def CreateCurrencyReq.msgs (req : CreateCurrencyReq) : List String :=
  (if req.Symbol = "" then ["symbol cannot be empty"] else []) ++
  (if req.Code = "" then ["code cannot be empty"] else []) ++
  (if req.Name = "" then ["name cannot be empty"] else [])

/-- The method `CreateCurrencyReq.Validate`. -/
def CreateCurrencyReq.Validate (req : CreateCurrencyReq) : Option Error :=
  validationResult req.msgs

/-- The struct `models.UpdateCurrencyReq`. -/
structure UpdateCurrencyReq where
  CurrencyID : String
  Code : String
  Name : String
  Symbol : String
  CreatedAt : Time
  UpdatedAt : Time
  deriving DecidableEq, Repr

/-- The messages `UpdateCurrencyReq.Validate` collects, in the order of its tests. -/
def UpdateCurrencyReq.msgs (req : UpdateCurrencyReq) : List String :=
  (if req.Symbol = "" then ["symbol cannot be empty"] else []) ++
  (if req.Code = "" then ["code cannot be empty"] else []) ++
  (if req.Name = "" then ["name cannot be empty"] else [])

/-- The method `UpdateCurrencyReq.Validate`. -/
def UpdateCurrencyReq.Validate (req : UpdateCurrencyReq) : Option Error :=
  validationResult req.msgs

/-- The struct `models.CreateDividendReq`. -/
structure CreateDividendReq where
  DividendID : String
  StockID : String
  DividendPerShare : Int
  DividendDate : Time
  CreatedAt : Time
  UpdatedAt : Time
  deriving DecidableEq, Repr

/-- The messages `CreateDividendReq.Validate` collects, in the order of its tests. -/
def CreateDividendReq.msgs (req : CreateDividendReq) : List String :=
  (if req.StockID = "" then ["stock id cannot be empty"] else []) ++
  (if req.DividendPerShare = 0 then ["dividend per share cannot be zero"] else []) ++
  (if req.DividendDate = Time.zero then ["dividend date cannot be empty"] else [])

/-- The method `CreateDividendReq.Validate`. -/
def CreateDividendReq.Validate (req : CreateDividendReq) : Option Error :=
  validationResult req.msgs

/-- The struct `models.UpdateDividendReq`. -/
structure UpdateDividendReq where
  DividendID : String
  StockID : String
  DividendPerShare : Int
  DividendDate : Time
  CreatedAt : Time
  UpdatedAt : Time
  deriving DecidableEq, Repr

/-- The messages `UpdateDividendReq.Validate` collects, in the order of its tests. -/
def UpdateDividendReq.msgs (req : UpdateDividendReq) : List String :=
  (if req.StockID = "" then ["stock id cannot be empty"] else []) ++
  (if req.DividendPerShare = 0 then ["dividend per share cannot be zero"] else []) ++
  (if req.DividendDate = Time.zero then ["dividend date cannot be empty"] else [])

/-- The method `UpdateDividendReq.Validate`. -/
def UpdateDividendReq.Validate (req : UpdateDividendReq) : Option Error :=
  validationResult req.msgs

/-- The struct `models.CreatePortfolioReq`. -/
structure CreatePortfolioReq where
  PortfolioID : String
  Userid : String
  Name : String
  Extid : String
  TaxCountryID : String
  FinancialYear : Time
  PerformenceCalculation : Int
  Summary : Bool
  PriceAlert : Bool
  CompanyEventAlert : Bool
  CreatedAt : Time
  UpdatedAt : Time
  deriving DecidableEq, Repr

/-- The messages `CreatePortfolioReq.Validate` collects, in the order of its tests. -/
def CreatePortfolioReq.msgs (req : CreatePortfolioReq) : List String :=
  (if req.Userid = "" then ["user id cannot be empty"] else []) ++
  (if req.Name = "" then ["name cannot be empty"] else []) ++
  (if req.Extid = "" then ["external id cannot be empty"] else []) ++
  (if req.TaxCountryID = "" then ["tax country id cannot be empty"] else []) ++
  (if req.FinancialYear = Time.zero then ["financial year cannot be empty"] else []) ++
  (if req.PerformenceCalculation = 0 then ["performance calculation cannot be zero"] else [])

/-- The method `CreatePortfolioReq.Validate`. -/
def CreatePortfolioReq.Validate (req : CreatePortfolioReq) : Option Error :=
  validationResult req.msgs

/-- The struct `models.UpdatePortfolioReq`. -/
structure UpdatePortfolioReq where
  Userid : String
  Name : String
  Extid : String
  TaxCountryID : String
  FinancialYear : Time
  PerformenceCalculation : Int
  Summary : Bool
  PriceAlert : Bool
  CompanyEventAlert : Bool
  deriving DecidableEq, Repr

/-- The messages `UpdatePortfolioReq.Validate` collects, in the order of its tests. -/
def UpdatePortfolioReq.msgs (req : UpdatePortfolioReq) : List String :=
  (if req.Userid = "" then ["user id cannot be empty"] else []) ++
  (if req.Name = "" then ["name cannot be empty"] else []) ++
  (if req.Extid = "" then ["external id cannot be empty"] else []) ++
  (if req.TaxCountryID = "" then ["tax country id cannot be empty"] else []) ++
  (if req.FinancialYear = Time.zero then ["financial year cannot be empty"] else []) ++
  (if req.PerformenceCalculation = 0 then ["performance calculation cannot be zero"] else [])

/-- The method `UpdatePortfolioReq.Validate`. -/
def UpdatePortfolioReq.Validate (req : UpdatePortfolioReq) : Option Error :=
  validationResult req.msgs

/-- The struct `models.CreateStockReq`. -/
structure CreateStockReq where
  StockID : String
  HoldingID : String
  Extid : String
  TickerSymbol : String
  CompanyName : String
  Slug : String
  CreatedAt : Time
  UpdatedAt : Time
  deriving DecidableEq, Repr

/-- The messages `CreateStockReq.Validate` collects, in the order of its tests. -/
def CreateStockReq.msgs (req : CreateStockReq) : List String :=
  (if req.HoldingID = "" then ["holding id cannot be empty"] else []) ++
  (if req.Extid = "" then ["external id cannot be empty"] else []) ++
  (if req.TickerSymbol = "" then ["ticker symbol cannot be empty"] else []) ++
  (if req.CompanyName = "" then ["company name cannot be empty"] else [])

/-- The method `CreateStockReq.Validate`. -/
def CreateStockReq.Validate (req : CreateStockReq) : Option Error :=
  validationResult req.msgs

/-- The struct `models.UpdateStockReq`. -/
structure UpdateStockReq where
  StockID : String
  HoldingID : String
  Extid : String
  TickerSymbol : String
  CompanyName : String
  Slug : String
  CreatedAt : Time
  UpdatedAt : Time
  deriving DecidableEq, Repr

/-- The messages `UpdateStockReq.Validate` collects, in the order of its tests. -/
def UpdateStockReq.msgs (req : UpdateStockReq) : List String :=
  (if req.HoldingID = "" then ["holding id cannot be empty"] else []) ++
  (if req.Extid = "" then ["external id cannot be empty"] else []) ++
  (if req.TickerSymbol = "" then ["ticker symbol cannot be empty"] else []) ++
  (if req.CompanyName = "" then ["company name cannot be empty"] else [])

/-- The method `UpdateStockReq.Validate`. -/
def UpdateStockReq.Validate (req : UpdateStockReq) : Option Error :=
  validationResult req.msgs

/-- The struct `models.UpdateTransactionReq`; `Quantity` is an `int16`. -/
structure UpdateTransactionReq where
  TransactionID : String
  StockID : String
  CryptocurrencyID : String
  Quantity : Int
  TransactionPrice : String
  TransactionDate : Time
  CreatedAt : Time
  UpdatedAt : Time
  deriving DecidableEq, Repr

/-- The messages `UpdateTransactionReq.Validate` collects, in the order of its four tests. -/
def UpdateTransactionReq.msgs (req : UpdateTransactionReq) : List String :=
  (if req.StockID = "" ∧ req.CryptocurrencyID = "" then
    ["either stock id or cryptocurrency id must be provided"] else []) ++
  (if req.Quantity = 0 then ["quantity cannot be zero"] else []) ++
  (if req.TransactionPrice = "" then ["transaction price cannot be empty"] else []) ++
  (if req.TransactionDate = Time.zero then ["transaction date cannot be empty"] else [])

/-- The method `UpdateTransactionReq.Validate`. -/
def UpdateTransactionReq.Validate (req : UpdateTransactionReq) : Option Error :=
  validationResult req.msgs

/-- Two validator results agree: both are nil, or both are validation errors with the
same message. -/
def validatorsAgree (a b : Option Error) : Prop :=
  (a = none ∧ b = none) ∨
    ∃ e1 e2, a = some e1 ∧ b = some e2 ∧ e1.isValidation = true ∧ e2.isValidation = true ∧
      e1.message = e2.message

/-- The zero value of `models.CreatePortfolioReq`. -/
def CreatePortfolioReq.zero : CreatePortfolioReq :=
  { PortfolioID := "", Userid := "", Name := "", Extid := "", TaxCountryID := "",
    FinancialYear := Time.zero, PerformenceCalculation := 0, Summary := false, PriceAlert := false,
    CompanyEventAlert := false, CreatedAt := Time.zero, UpdatedAt := Time.zero }

/-- The zero value of `models.UpdatePortfolioReq`. -/
def UpdatePortfolioReq.zero : UpdatePortfolioReq :=
  { Userid := "", Name := "", Extid := "", TaxCountryID := "", FinancialYear := Time.zero,
    PerformenceCalculation := 0, Summary := false, PriceAlert := false, CompanyEventAlert := false }

/-! ## Statements of the repositories: INSERT and UPDATE -/

/-- A value bound to a placeholder of a statement. -/
inductive SqlValue where
  | str (s : String)
  | int (i : Int)
  | bool (b : Bool)
  | time (t : Time)
  deriving DecidableEq, Repr

/-- A statement as a repository hands it to the connection: the text and the bound
arguments, in order. -/
structure Statement where
  text : String
  args : List SqlValue
  deriving DecidableEq, Repr

/-- An argument of the broker and user statements as a bound value. -/
def SqlArg.toValue : SqlArg → SqlValue
  | .str s => .str s
  | .time t => .time t

/-- The struct `entities.Currency`. -/
structure Currency where
  CurrencyID : String
  Code : String
  Name : String
  Symbol : String
  CreatedAt : Time
  UpdatedAt : Time
  deriving DecidableEq, Repr

/-- The struct `entities.Dividend`. -/
structure Dividend where
  DividendID : String
  StockID : String
  DividendPerShare : Int
  DividendDate : Time
  CreatedAt : Time
  UpdatedAt : Time
  deriving DecidableEq, Repr

/-- The struct `entities.CryptoCurrency`. -/
structure CryptoCurrency where
  CryptoCurrencyID : String
  HoldingID : String
  Symbol : String
  Name : String
  CreatedAt : Time
  UpdatedAt : Time
  deriving DecidableEq, Repr

/-- The struct `entities.Stock`. -/
structure Stock where
  StockID : String
  HoldingID : String
  Extid : String
  TickerSymbol : String
  CompanyName : String
  Slug : String
  CreatedAt : Time
  UpdatedAt : Time
  deriving DecidableEq, Repr

/-- The struct `entities.Transaction`. -/
structure Transaction where
  TransactionID : String
  StockID : String
  CryptocurrencyID : String
  Quantity : String
  TransactionPrice : String
  TransactionDate : Time
  CreatedAt : Time
  UpdatedAt : Time
  deriving DecidableEq, Repr

/-- The struct `entities.Holding`. -/
structure Holding where
  HoldingID : String
  PortfolioID : String
  BrokerID : String
  Extid : String
  Name : String
  Description : String
  Slug : String
  TradeDate : Time
  TradeType : String
  Quantity : Int
  SharePrice : Int
  ExchangeRate : Int
  ExchangeCurrencyID : String
  BrokerageUnitPrice : Int
  BrokerageCurrency : String
  CreatedAt : Time
  UpdatedAt : Time
  deriving DecidableEq, Repr

/-- The text of the INSERT statement of `brokerRepository.Create`. -/
def brokerRepository.insertQuery : String :=
  "\n\tINSERT INTO broker (extid, name, description, slug, created_at, updated_at)\n        VALUES ($1, $2, $3, $4, $5, $6, $7)\n        RETURNING brokerid;\n    "

/-- The statement `brokerRepository.Create` issues for an entity. -/
def brokerRepository.createStatement (b : Broker) : Statement :=
  { text := brokerRepository.insertQuery,
    args := (brokerRepository.insertArgs b).map SqlArg.toValue }

/-- The statement one turn of `brokerRepository.CreateMany` issues for an entity. -/
def brokerRepository.createManyStatement (b : Broker) : Statement :=
  { text := brokerRepository.insertManyQuery,
    args := (brokerRepository.insertArgs b).map SqlArg.toValue }

/-- The statement `brokerRepository.Update` issues for an id and an entity. -/
def brokerRepository.updateStatement (ID : String) (b : Broker) : Statement :=
  { text := brokerRepository.updateQuery,
    args := (brokerRepository.updateArgs ID b).map SqlArg.toValue }

/-- The statement `currencyRepository.Create` issues for an entity. -/
def currencyRepository.createStatement (c : Currency) : Statement :=
  { text := "\n\tINSERT INTO currency (name, code, symbol, created_at, updated_at)\n        VALUES ($1, $2, $3, $4, $5, $6)\n        RETURNING currencyid;\n    ",
    args := [.str c.Name, .str c.Code, .str c.Symbol, .time c.CreatedAt, .time c.UpdatedAt] }

/-- The statement one turn of `currencyRepository.CreateMany` issues for an entity. -/
def currencyRepository.createManyStatement (c : Currency) : Statement :=
  { text := "\n\t\tINSERT INTO currency (name, code, symbol, created_at, updated_at)\n\t\t\tVALUES ($1, $2, $3, $4, $5)\n\t\t\tRETURNING currencyid;",
    args := [.str c.Name, .str c.Code, .str c.Symbol, .time c.CreatedAt, .time c.UpdatedAt] }

/-- The statement `dividendRepository.Create` issues for an entity. -/
def dividendRepository.createStatement (d : Dividend) : Statement :=
  { text := "\n\tINSERT INTO dividend (stockid, dividend_per_share, dividend_date, created_at, updated_at)\n        VALUES ($1, $2, $3, $4, $5, $6)\n        RETURNING dividendid;\n    ",
    args := [.str d.StockID, .int d.DividendPerShare, .time d.DividendDate, .time d.CreatedAt,
      .time d.UpdatedAt] }

/-- The statement one turn of `dividendRepository.CreateMany` issues for an entity. -/
def dividendRepository.createManyStatement (d : Dividend) : Statement :=
  { text := "\n\t\tINSERT INTO dividend (stockid, dividend_per_share, dividend_date, created_at, updated_at)\n\t\t\tVALUES ($1, $2, $3, $4, $5)\n\t\t\tRETURNING dividendid;",
    args := [.str d.StockID, .int d.DividendPerShare, .time d.DividendDate, .time d.CreatedAt,
      .time d.UpdatedAt] }

/-- The statement `cryptoCurrencyRepository.Create` issues for an entity. -/
def cryptoCurrencyRepository.createStatement (c : CryptoCurrency) : Statement :=
  { text := "\n\tINSERT INTO crypto_currency (name, holdingid, symbol, created_at, updated_at)\n        VALUES ($1, $2, $3, $4, $5, $6)\n        RETURNING crypto_currencyid;\n    ",
    args := [.str c.Name, .str c.HoldingID, .str c.Symbol, .time c.CreatedAt, .time c.UpdatedAt] }

/-- The statement one turn of `cryptoCurrencyRepository.CreateMany` issues for an entity. -/
def cryptoCurrencyRepository.createManyStatement (c : CryptoCurrency) : Statement :=
  { text := "\n\t\tINSERT INTO crypto_currency (holdingid, name, symbol, created_at, updated_at)\n\t\t\tVALUES ($1, $2, $3, $4, $5)\n\t\t\tRETURNING crypto_currencyid;",
    args := [.str c.Name, .str c.HoldingID, .str c.Symbol, .time c.CreatedAt, .time c.UpdatedAt] }

/-- The statement `stockRepository.Create` issues for an entity. -/
def stockRepository.createStatement (c : Stock) : Statement :=
  { text := "\n\tINSERT INTO stock (holdingid,extid, ticker_symbol,company_name,slug, created_at, updated_at)\n        VALUES ($1, $2, $3, $4, $5, $6,$7)\n        RETURNING stockid;\n    ",
    args := [.str c.HoldingID, .str c.Extid, .str c.TickerSymbol, .str c.CompanyName, .str c.Slug,
      .time c.CreatedAt, .time c.UpdatedAt] }

/-- The statement `stockRepository.Update` issues for an id and an entity. -/
def stockRepository.updateStatement (ID : String) (b : Stock) : Statement :=
  { text := "\n\tUPDATE stock set holdingid=$1, ticker_symbol=$2,company_name=$3,slug=$4, updated_at=$5\n\t    WHERE stockid=$6;\n\t",
    args := [.str b.HoldingID, .str b.HoldingID, .str b.TickerSymbol, .str b.CompanyName,
      .str b.Slug, .time b.UpdatedAt, .str ID] }

/-- The statement `transactionRepository.Update` issues for an id and an entity. -/
def transactionRepository.updateStatement (ID : String) (b : Transaction) : Statement :=
  { text := "\n\tUPDATE transaction set stockid=$1, cryptocurrencyid=$2, quantity=$3,transaction_price=$4,transaction_date=$5, updated_at=$6\n\t    WHERE transactionid=$5;\n\t",
    args := [.str b.StockID, .str b.CryptocurrencyID, .str b.Quantity, .str b.TransactionPrice,
      .time b.TransactionDate, .time b.UpdatedAt, .str ID] }

/-- The statement `holdingRepository.Update` issues for an id and an entity. -/
def holdingRepository.updateStatement (ID : String) (c : Holding) : Statement :=
  { text := "\n\tUPDATE holding set brokerid=$1, name=$2, description=$3, slug=$4,trade_date=$5,trade_type=$6,quantity=$7,share_price=$8,exhcange_rate=$9,exchange_currencyid=$10,brokerage_unit_price=$11,brokerage_currency=$12,,updated_at=$13\n\t    WHERE holdingid=$14;\n\t",
    args := [.str c.BrokerID, .str c.Name, .str c.Description, .str c.Slug, .time c.TradeDate,
      .str c.TradeType, .int c.Quantity, .int c.SharePrice, .int c.ExchangeRate,
      .str c.ExchangeCurrencyID, .int c.BrokerageUnitPrice, .str c.BrokerageCurrency,
      .time c.UpdatedAt, .str ID] }

/-- The numbers of the placeholders `$n` of a text, in the order they occur; the
first argument is the number being read, if any. -/
def placeholdersAux : Option Nat → List Char → List Nat
  | none, [] => []
  | some n, [] => [n]
  | none, c :: cs => if c = '$' then placeholdersAux (some 0) cs else placeholdersAux none cs
  | some n, c :: cs =>
    if c.isDigit then placeholdersAux (some (10 * n + (c.toNat - 48))) cs
    else n :: (if c = '$' then placeholdersAux (some 0) cs else placeholdersAux none cs)

/-- The numbers of the placeholders `$n` of a statement text, in the order they occur. -/
def placeholders (q : String) : List Nat := placeholdersAux none q.toList

/-- The column names of an INSERT statement: the comma separated names between the
first pair of parentheses. -/
def insertColumns (q : String) : List String :=
  match afterWord "(".toList q.toList with
  | none => []
  | some rest => (splitOnChar ',' (beforeWord ")".toList rest)).map (fun cs => String.mk (trimChars cs))

/-- An INSERT statement is well formed: for its n columns the placeholders are
exactly `$1` to `$n`, and n arguments are bound. -/
def wellFormedInsert (st : Statement) : Bool :=
  placeholders st.text == List.range' 1 (insertColumns st.text).length &&
    st.args.length == (insertColumns st.text).length

/-- The column to value binding of an INSERT statement: each column with the argument
bound to the placeholder at its position. -/
def insertBinding (st : Statement) : List (String × Option SqlValue) :=
  (insertColumns st.text).zip ((placeholders st.text).map (fun k => st.args[k - 1]?))

/-- The value an INSERT statement binds to a column. -/
def insertValue (st : Statement) (column : String) : Option SqlValue :=
  ((insertBinding st).lookup column).join

/-- One item `column=$n` of an UPDATE statement: the column and the number of its placeholder. -/
def parseAssignment (cs : List Char) : Option (String × Nat) :=
  match splitOnChar '=' cs with
  | [col, v] =>
    match placeholdersAux none v with
    | [n] => some (String.mk (trimChars col), n)
    | _ => none
  | _ => none

/-- The items of the SET list of an UPDATE statement, in order; an item that is not
of the form `column=$n` is `none`. -/
def setAssignments (q : String) : List (Option (String × Nat)) :=
  match afterWord " set ".toList q.toList with
  | none => []
  | some rest => (splitOnChar ',' (beforeWord "WHERE".toList rest)).map parseAssignment

/-- The comparison `key=$n` of the WHERE clause of an UPDATE statement. -/
def whereAssignment (q : String) : Option (String × Nat) :=
  match afterWord "WHERE".toList q.toList with
  | none => none
  | some rest => parseAssignment (beforeWord ";".toList rest)

/-- The value an UPDATE statement binds to the placeholder of a SET column or of the key. -/
def boundTo (st : Statement) (item : Option (String × Nat)) : Option SqlValue :=
  match item with
  | none => none
  | some (_, n) => st.args[n - 1]?

/-- The placeholders of an UPDATE statement are exactly `$1` to `$n`, each used once,
for its n bound arguments, and the key of the WHERE clause is compared with the last
argument, the id. -/
def wellFormedUpdate (st : Statement) : Bool :=
  placeholders st.text == List.range' 1 st.args.length &&
    (match whereAssignment st.text with
     | some (_, n) => n == st.args.length
     | none => false) &&
    (setAssignments st.text).all Option.isSome

/-- A currency to insert. -/
def currencyOne : Currency :=
  { CurrencyID := "", Code := "CZK", Name := "Czech koruna", Symbol := "Kc", CreatedAt := ⟨7⟩,
    UpdatedAt := ⟨7⟩ }

/-- A dividend to insert. -/
def dividendOne : Dividend :=
  { DividendID := "", StockID := "s1", DividendPerShare := 3, DividendDate := ⟨5⟩,
    CreatedAt := ⟨7⟩, UpdatedAt := ⟨7⟩ }

/-- A crypto-currency to insert. -/
def cryptoOne : CryptoCurrency :=
  { CryptoCurrencyID := "", HoldingID := "h1", Symbol := "BTC", Name := "Bitcoin",
    CreatedAt := ⟨7⟩, UpdatedAt := ⟨7⟩ }

/-- A stock to update. -/
def stockOne : Stock :=
  { StockID := "s1", HoldingID := "h1", Extid := "e1", TickerSymbol := "TCK",
    CompanyName := "Company", Slug := "company", CreatedAt := ⟨5⟩, UpdatedAt := ⟨8⟩ }

/-- A transaction to update. -/
def transactionOne : Transaction :=
  { TransactionID := "t1", StockID := "s1", CryptocurrencyID := "c1", Quantity := "10",
    TransactionPrice := "100", TransactionDate := ⟨6⟩, CreatedAt := ⟨5⟩, UpdatedAt := ⟨8⟩ }

/-- A holding to update. -/
def holdingOne : Holding :=
  { HoldingID := "h1", PortfolioID := "p1", BrokerID := "b1", Extid := "e1", Name := "Name",
    Description := "Description", Slug := "slug", TradeDate := ⟨6⟩, TradeType := "buy",
    Quantity := 1, SharePrice := 2, ExchangeRate := 3, ExchangeCurrencyID := "czk",
    BrokerageUnitPrice := 4, BrokerageCurrency := "czk", CreatedAt := ⟨5⟩, UpdatedAt := ⟨8⟩ }

/-! ## The postgres crypto-currency repository: GetByID and GetBySymbol -/

/-- A row of the crypto-currency table as the SELECT statements of the repository name
its columns. -/
structure CryptoRow where
  crypto_currencyid : String
  holdingid : String
  name : String
  symbol : String
  created_at : Time
  updated_at : Time
  deriving DecidableEq, Repr

/-- The zero value of `entities.CryptoCurrency`, the `var c` both methods scan into. -/
def CryptoCurrency.zero : CryptoCurrency :=
  { CryptoCurrencyID := "", HoldingID := "", Symbol := "", Name := "", CreatedAt := Time.zero,
    UpdatedAt := Time.zero }

/-- The answer of the connection to `QueryRowContext`: the row, or the error of the
query or of the scan (`sql.ErrNoRows` when the query yields no row). -/
structure CryptoConn where
  queryRow : String → List SqlValue → Except SqlError CryptoRow

/-- The text of the SELECT statement of `cryptoCurrencyRepository.GetByID`. -/
def cryptoCurrencyRepository.getByIDQuery : String :=
  "\n    SELECT crypto_currencyid, holdingid, name, symbol, created_at, updated_at\n        FROM crypto_currency WHERE crypto_currencyid = $1;\n    "

/-- The text of the SELECT statement of `cryptoCurrencyRepository.GetBySymbol`. -/
def cryptoCurrencyRepository.getBySymbolQuery : String :=
  "\n    SELECT crypto_currencyid, holdingid, name, symbol, created_at, updated_at\n\tFROM crypto_currency WHERE symbol = $1;\n    "

/-- The `Scan` of `cryptoCurrencyRepository.GetByID`: the six columns are assigned, in
order, to `CryptoCurrencyID`, `HoldingID`, `Name`, `Symbol`, `CreatedAt`, `UpdatedAt`. -/
def cryptoCurrencyRepository.scanByID (r : CryptoRow) : CryptoCurrency :=
  let c := CryptoCurrency.zero
  let c := { c with CryptoCurrencyID := r.crypto_currencyid }
  let c := { c with HoldingID := r.holdingid }
  let c := { c with Name := r.name }
  let c := { c with Symbol := r.symbol }
  let c := { c with CreatedAt := r.created_at }
  { c with UpdatedAt := r.updated_at }

/-- The `Scan` of `cryptoCurrencyRepository.GetBySymbol`: the six columns are assigned,
in order, to `CryptoCurrencyID`, `CryptoCurrencyID`, `Name`, `Symbol`, `CreatedAt`,
`UpdatedAt`. -/
def cryptoCurrencyRepository.scanBySymbol (r : CryptoRow) : CryptoCurrency :=
  let c := CryptoCurrency.zero
  let c := { c with CryptoCurrencyID := r.crypto_currencyid }
  let c := { c with CryptoCurrencyID := r.holdingid }
  let c := { c with Name := r.name }
  let c := { c with Symbol := r.symbol }
  let c := { c with CreatedAt := r.created_at }
  { c with UpdatedAt := r.updated_at }

/-- The method `cryptoCurrencyRepository.GetByID`. -/
def cryptoCurrencyRepository.GetByID (conn : CryptoConn) (ID : String) :
    Option CryptoCurrency × Option Error :=
  match conn.queryRow cryptoCurrencyRepository.getByIDQuery [.str ID] with
  | .error err =>
    if err.isErrNoRows then (none, some (.nonExistent (.sql err))) else (none, some (.sql err))
  | .ok r => (some (cryptoCurrencyRepository.scanByID r), none)

/-- The method `cryptoCurrencyRepository.GetBySymbol`. -/
def cryptoCurrencyRepository.GetBySymbol (conn : CryptoConn) (Symbol : String) :
    Option CryptoCurrency × Option Error :=
  match conn.queryRow cryptoCurrencyRepository.getBySymbolQuery [.str Symbol] with
  | .error err =>
    if err.isErrNoRows then (none, some (.nonExistent (.sql err))) else (none, some (.sql err))
  | .ok r => (some (cryptoCurrencyRepository.scanBySymbol r), none)

/-- A stored crypto-currency row. -/
def cryptoRow : CryptoRow :=
  { crypto_currencyid := "c1", holdingid := "h1", name := "Bitcoin", symbol := "BTC",
    created_at := ⟨5⟩, updated_at := ⟨8⟩ }

/-- A connection to a table that holds `cryptoRow` and answers every query with it. -/
def cryptoConn : CryptoConn where
  queryRow := fun _ _ => .ok cryptoRow

/-! ## The structure of a statement text: string literals and what is outside them -/

/-- The single quote, which opens and closes a string literal of a statement. -/
def quote : Char := Char.ofNat 39

/-- A text holds no single quote. -/
def quoteFree (s : String) : Prop := quote ∉ s.toList

/-- The text of a statement outside its string literals: the quotes are kept and the
content of every literal is dropped. The flag tells whether the text starts inside a
literal. -/
def sqlSkeletonAux : Bool → List Char → List Char
  | _, [] => []
  | false, c :: cs => if c = quote then c :: sqlSkeletonAux true cs else c :: sqlSkeletonAux false cs
  | true, c :: cs => if c = quote then c :: sqlSkeletonAux false cs else sqlSkeletonAux true cs

/-- The structure of a statement text: the text with the content of its string literals dropped. -/
def sqlSkeleton (q : String) : String := String.mk (sqlSkeletonAux false q.toList)

/-- The contents of the string literals of a text, in order. The first argument is
the content read so far of the literal the text starts in, if any. -/
def sqlLiteralsAux : Option (List Char) → List Char → List String
  | _, [] => []
  | none, c :: cs => if c = quote then sqlLiteralsAux (some []) cs else sqlLiteralsAux none cs
  | some cur, c :: cs =>
    if c = quote then String.mk cur :: sqlLiteralsAux none cs
    else sqlLiteralsAux (some (cur ++ [c])) cs

/-- The contents of the string literals of a statement text, in order. -/
def sqlLiterals (q : String) : List String := sqlLiteralsAux none q.toList

/-- The end of the clause of `Get`: the offset and the limit, when given. -/
def offsetLimit (skip take : Option Int) : String :=
  (match skip with
    | some s => " OFFSET " ++ toString s
    | none => "") ++
  (match take with
    | some t => " LIMIT " ++ toString t
    | none => "")

/-- The structure of the conditions that follow the first one: for each key,
`AND`, the key and an empty literal. -/
def moreConditionsSkeleton : List String → List Char
  | [] => []
  | k :: ks => " AND ".toList ++ k.toList ++ " = ".toList ++ [quote, quote] ++ moreConditionsSkeleton ks

/-- The structure of the filter part of the clause: nothing for no key, otherwise
`WHERE` and, for each key, the key and an empty literal, joined by `AND`. -/
def whereSkeleton : List String → List Char
  | [] => []
  | k :: ks => "WHERE ".toList ++ k.toList ++ " = ".toList ++ [quote, quote] ++ moreConditionsSkeleton ks

/-- The text of `brokerRepository.getQuery` before the clause. -/
def brokerRepository.getQueryHead : String :=
  "\n\tSELECT brokerid, extid, name, description, slug, created_at, updated_at\n\t    FROM broker "

/-- A slug that closes the literal it is put in and adds a condition. -/
def injectedSlug : String := "a' OR 'a'='a"

/-- The text of the SELECT statement of `brokerRepository.GetBySlug`, the method of the
repository port that binds the slug; `brokerService.GetBySlug` does not call it. -/
def brokerRepository.getBySlugQuery : String :=
  "\n    SELECT brokerid, extid, name, description, slug, created_at, updated_at\n        FROM broker WHERE slug = $1;\n    "

instance quoteFree.decidable (s : String) : Decidable (quoteFree s) :=
  inferInstanceAs (Decidable (quote ∉ s.toList))

/-! ## Validators -/

theorem validationResult_isValidation (msgs : List String) (err : Error)
    (h : validationResult msgs = some err) : err.isValidation = true := by
  unfold validationResult at h
  split at h
  · cases h
    rfl
  · cases h

/-! ## The broker service -/

/-- C1: for every create request that `Validate` rejects, `brokerService.Create`
returns exactly that validation error with the empty `CreationResp`, and makes no
call to the repository. -/
theorem brokerService_Create_invalid (repo : BrokerRepository) (now : Time)
    (broker : CreateBrokerReq) (err : Error) (h : broker.Validate = some err) :
    brokerService.Create repo now broker = ((⟨""⟩, some err), []) ∧ err.isValidation = true := by
  refine ⟨?_, validationResult_isValidation _ _ h⟩
  simp [brokerService.Create, h]

theorem brokerService_Create_invalid_witness :
    invalidReq.Validate = some invalidReqErr ∧
      brokerService.Create failingRepository ⟨7⟩ invalidReq = ((⟨""⟩, some invalidReqErr), []) ∧
      invalidReqErr.isValidation = true :=
  ⟨by decide, brokerService_Create_invalid failingRepository ⟨7⟩ invalidReq invalidReqErr (by decide)⟩

theorem createManyLoop_first_invalid (now : Time) (pre : List CreateBrokerReq) (r : CreateBrokerReq)
    (post : List CreateBrokerReq) (err : Error) (hpre : ∀ x ∈ pre, x.Validate = none)
    (hr : r.Validate = some err) (create : List Broker) :
    brokerService.createManyLoop now (pre ++ r :: post) create = .error err := by
  induction pre generalizing create with
  | nil => simp [brokerService.createManyLoop, hr]
  | cons x xs ih =>
    have hx : x.Validate = none := hpre x (List.mem_cons_self _ _)
    simp only [List.cons_append, brokerService.createManyLoop, hx]
    exact ih (fun y hy => hpre y (List.mem_cons_of_mem _ hy)) _

theorem exists_first_invalid (brokers : List CreateBrokerReq)
    (h : ∃ r ∈ brokers, r.Validate ≠ none) :
    ∃ pre r post err, brokers = pre ++ r :: post ∧ (∀ x ∈ pre, x.Validate = none) ∧
      r.Validate = some err := by
  induction brokers with
  | nil => simp at h
  | cons x xs ih =>
    cases hx : x.Validate with
    | some err => exact ⟨[], x, xs, err, rfl, by simp, hx⟩
    | none =>
      obtain ⟨r, hr, hne⟩ := h
      have hr2 : r ∈ xs := by
        rcases List.mem_cons.mp hr with heq | hmem
        · subst heq
          exact absurd hx hne
        · exact hmem
      obtain ⟨pre, r2, post, err, heq, hpre, hr3⟩ := ih ⟨r, hr2, hne⟩
      refine ⟨x :: pre, r2, post, err, by simp [heq], ?_, hr3⟩
      intro y hy
      rcases List.mem_cons.mp hy with h1 | h1
      · subst h1
        exact hx
      · exact hpre y h1

/-- C2: for every list of create requests holding at least one request that
`Validate` rejects, `brokerService.CreateMany` returns the validation error of the
first rejected request in list order with the empty `MultiCreationResp`, and makes no
call to the repository. -/
theorem brokerService_CreateMany_invalid (repo : BrokerRepository) (now : Time)
    (brokers : List CreateBrokerReq) (h : ∃ r ∈ brokers, r.Validate ≠ none) :
    ∃ pre r post err, brokers = pre ++ r :: post ∧ (∀ x ∈ pre, x.Validate = none) ∧
      r.Validate = some err ∧ err.isValidation = true ∧
      brokerService.CreateMany repo now brokers = ((⟨[]⟩, some err), []) := by
  obtain ⟨pre, r, post, err, heq, hpre, hr⟩ := exists_first_invalid brokers h
  refine ⟨pre, r, post, err, heq, hpre, hr, validationResult_isValidation _ _ hr, ?_⟩
  subst heq
  simp [brokerService.CreateMany, createManyLoop_first_invalid now pre r post err hpre hr]

theorem brokerService_CreateMany_invalid_witness :
    ∃ pre r post err, [validReq, invalidReq, validReq] = pre ++ r :: post ∧
      (∀ x ∈ pre, x.Validate = none) ∧ r.Validate = some err ∧ err.isValidation = true ∧
      brokerService.CreateMany emptyRepository ⟨7⟩ [validReq, invalidReq, validReq] =
        ((⟨[]⟩, some err), []) :=
  brokerService_CreateMany_invalid emptyRepository ⟨7⟩ [validReq, invalidReq, validReq]
    ⟨invalidReq, by decide, by decide⟩

/-- C6, evaluated: for the valid request of the tests and one clock reading,
`Create` hands the repository an entity whose slug is the name, while
`CreateMany` on the one-element list hands it an entity whose slug is still empty. -/
theorem brokerService_CreateMany_slug_not_set :
    (brokerService.Create emptyRepository ⟨7⟩ validReq).2 =
        [.create { BrokerID := "", Extid := "1", Name := "test", Description := "test",
                   Slug := "test", CreatedAt := ⟨7⟩, UpdatedAt := ⟨7⟩ }] ∧
      (brokerService.CreateMany emptyRepository ⟨7⟩ [validReq]).2 =
        [.createMany [{ BrokerID := "", Extid := "1", Name := "test", Description := "test",
                        Slug := "", CreatedAt := ⟨7⟩, UpdatedAt := ⟨7⟩ }]] ∧
      validReq.Validate = none := by
  decide

/-- C7: for every valid create request `b`, `brokerService.Create` calls the
repository once, with an entity that carries the external id, name and description of
`b`, the name of `b` as slug and the one clock reading in both timestamps; an id
returned without error comes back as `CreationResp` with a nil error, and a repository
error comes back unchanged with an empty `InsertedID`. -/
theorem brokerService_Create_valid (repo : BrokerRepository) (now : Time) (b : CreateBrokerReq)
    (h : b.Validate = none) :
    ∃ entity, (brokerService.Create repo now b).2 = [.create entity] ∧
      entity.Extid = b.Extid ∧ entity.Name = b.Name ∧ entity.Description = b.Description ∧
      entity.Slug = b.Name ∧ entity.CreatedAt = now ∧ entity.UpdatedAt = now ∧
      entity.CreatedAt = entity.UpdatedAt ∧
      (∀ id, repo.Create entity = (id, none) →
        (brokerService.Create repo now b).1 = (⟨id⟩, none)) ∧
      (∀ id err, repo.Create entity = (id, some err) →
        (brokerService.Create repo now b).1 = (⟨""⟩, some err)) := by
  refine ⟨brokerService.createEntity now b, ?_, rfl, rfl, rfl, rfl, rfl, rfl, rfl, ?_, ?_⟩
  · simp only [brokerService.Create, h]
    rcases hc : repo.Create (brokerService.createEntity now b) with ⟨id, _ | err⟩ <;> rfl
  · intro id hid
    simp [brokerService.Create, h, hid]
  · intro id err hid
    simp [brokerService.Create, h, hid]

theorem brokerService_Create_valid_witness :
    ∃ entity, (brokerService.Create emptyRepository ⟨7⟩ validReq).2 = [.create entity] ∧
      entity.Extid = validReq.Extid ∧ entity.Name = validReq.Name ∧
      entity.Description = validReq.Description ∧
      entity.Slug = validReq.Name ∧ entity.CreatedAt = ⟨7⟩ ∧ entity.UpdatedAt = ⟨7⟩ ∧
      entity.CreatedAt = entity.UpdatedAt ∧
      (∀ id, emptyRepository.Create entity = (id, none) →
        (brokerService.Create emptyRepository ⟨7⟩ validReq).1 = (⟨id⟩, none)) ∧
      (∀ id err, emptyRepository.Create entity = (id, some err) →
        (brokerService.Create emptyRepository ⟨7⟩ validReq).1 = (⟨""⟩, some err)) :=
  brokerService_Create_valid emptyRepository ⟨7⟩ validReq (by decide)

/-- C5, evaluated: `Validate` rejects the empty update request with the validation
error for the name and the description, yet for the id of the broker the repository
holds `brokerService.Update` does not return that error: it calls the repository's
`Update` with the name and the description emptied and returns its nil result. For
an id the repository does not hold it returns the NonExistent error of the lookup.
`brokerService.Create`, given a request with the same fields empty, returns the
validation error and calls nothing. -/
theorem brokerService_Update_skips_validation :
    emptyUpdateReq.Validate =
        some (.validation (.plain "name cannot be empty | description cannot be empty")) ∧
      brokerService.Update singleRepository ⟨9⟩ "test-id" emptyUpdateReq =
        (none, [.getByID "test-id",
          .update "test-id"
            { BrokerID := "test-id", Extid := "1", Name := "", Description := "", Slug := "test",
              CreatedAt := ⟨5⟩, UpdatedAt := ⟨9⟩ }]) ∧
      (brokerService.Update singleRepository ⟨9⟩ "test-id" emptyUpdateReq).1 ≠
        emptyUpdateReq.Validate ∧
      brokerService.Update emptyRepository ⟨7⟩ "non-existent-id" emptyUpdateReq =
        (some (.nonExistent (.plain "ID non-existent-id not found")), [.getByID "non-existent-id"]) ∧
      brokerService.Create singleRepository ⟨9⟩ invalidReq = ((⟨""⟩, some invalidReqErr), []) := by
  decide

/-- C9: `brokerService.GetAll` asks the repository for everything; a NonExistent
error becomes the empty list with a nil error, any other error is returned
unchanged, and on success the response has the length of the repository's list and
its i-th element carries the fields of the i-th entity. -/
theorem brokerService_GetAll_spec (repo : BrokerRepository) :
    (brokerService.GetAll repo).2 = [.get [] none none] ∧
    (∀ l e, repo.Get [] none none = (l, some e) → e.isNonExistent = true →
      (brokerService.GetAll repo).1 = ([], none)) ∧
    (∀ l e, repo.Get [] none none = (l, some e) → e.isNonExistent = false →
      (brokerService.GetAll repo).1 = ([], some e)) ∧
    (∀ l, repo.Get [] none none = (l, none) →
      (brokerService.GetAll repo).1.2 = none ∧
      (brokerService.GetAll repo).1.1.length = l.length ∧
      ∀ (i : Nat) (b : Broker), l[i]? = some b →
        ∃ r : BrokerResp, (brokerService.GetAll repo).1.1[i]? = some r ∧ r.sameFields b) := by
  refine ⟨?_, ?_, ?_, ?_⟩
  · unfold brokerService.GetAll
    rcases hq : repo.Get [] none none with ⟨l, _ | e⟩
    · rfl
    · by_cases hne : e.isNonExistent = true <;> simp [hne]
  · intro l e hq hne
    simp [brokerService.GetAll, hq, hne]
  · intro l e hq hne
    simp [brokerService.GetAll, hq, hne]
  · intro l hq
    simp only [brokerService.GetAll, hq, List.length_map, true_and]
    intro i b hb
    refine ⟨b.toResp, ?_, ?_⟩
    · simp [List.getElem?_map, hb]
    · exact ⟨rfl, rfl, rfl, rfl, rfl, rfl, rfl⟩

/-- C9 at three repositories: one that finds nothing, one that fails, one that holds a broker. -/
theorem brokerService_GetAll_spec_witness :
    (brokerService.GetAll emptyRepository).1 = ([], none) ∧
      (brokerService.GetAll failingRepository).1 = ([], some (.plain "repository-error")) ∧
      (brokerService.GetAll singleRepository).1.1.length = [storedBroker].length :=
  ⟨(brokerService_GetAll_spec emptyRepository).2.1 [] _ rfl rfl,
    (brokerService_GetAll_spec failingRepository).2.2.1 [] _ rfl rfl,
    ((brokerService_GetAll_spec singleRepository).2.2.2 [storedBroker] rfl).2.1⟩

/-- C10: for every id, `brokerService.GetByID` turns a NonExistent error of the
repository into a NonExistent error whose message is exactly `ID <ID> not found`,
returns any other repository error unchanged, and on success returns a response that
carries the fields of the stored entity. -/
theorem brokerService_GetByID_spec (repo : BrokerRepository) (ID : String) :
    (brokerService.GetByID repo ID).2 = [.getByID ID] ∧
    (∀ e, repo.GetByID ID = .error e → e.isNonExistent = true →
      ∃ err, (brokerService.GetByID repo ID).1.2 = some err ∧ err.isNonExistent = true ∧
        err.message = "ID " ++ ID ++ " not found") ∧
    (∀ e, repo.GetByID ID = .error e → e.isNonExistent = false →
      (brokerService.GetByID repo ID).1.2 = some e) ∧
    (∀ b, repo.GetByID ID = .ok b →
      (brokerService.GetByID repo ID).1.2 = none ∧
      (brokerService.GetByID repo ID).1.1.sameFields b) := by
  refine ⟨?_, ?_, ?_, ?_⟩
  · unfold brokerService.GetByID
    rcases hq : repo.GetByID ID with e | b
    · by_cases hne : e.isNonExistent = true <;> simp [hne]
    · rfl
  · intro e hq hne
    exact ⟨.nonExistent (.plain ("ID " ++ ID ++ " not found")),
      by simp [brokerService.GetByID, hq, hne], rfl, rfl⟩
  · intro e hq hne
    simp [brokerService.GetByID, hq, hne]
  · intro b hq
    simp only [brokerService.GetByID, hq, true_and]
    exact ⟨rfl, rfl, rfl, rfl, rfl, rfl, rfl⟩

/-- C10 at the ids of the service tests. -/
theorem brokerService_GetByID_spec_witness :
    (∃ err, (brokerService.GetByID singleRepository "non-existent-id").1.2 = some err ∧
        err.isNonExistent = true ∧ err.message = "ID " ++ "non-existent-id" ++ " not found") ∧
      (brokerService.GetByID failingRepository "test-id").1.2 = some (.plain "repository-error") ∧
      (brokerService.GetByID singleRepository "test-id").1.1.sameFields storedBroker :=
  ⟨(brokerService_GetByID_spec singleRepository "non-existent-id").2.1 _ rfl rfl,
    (brokerService_GetByID_spec failingRepository "test-id").2.2.1 _ rfl rfl,
    ((brokerService_GetByID_spec singleRepository "test-id").2.2.2 storedBroker rfl).2⟩

/-! ## The postgres broker repository -/

theorem scanRows_ok_iff (rows : List (Except SqlError BrokerRow)) (acc l : List Broker) :
    brokerRepository.scanRows rows acc = .ok l ↔
      ∃ rs : List BrokerRow, rows = rs.map Except.ok ∧ l = acc ++ rs.map brokerRepository.scanBroker := by
  induction rows generalizing acc with
  | nil =>
    simp only [brokerRepository.scanRows, Except.ok.injEq]
    constructor
    · intro h
      exact ⟨[], rfl, by simp [h]⟩
    · rintro ⟨rs, hrs, hl⟩
      have : rs = [] := by
        cases rs with
        | nil => rfl
        | cons _ _ => simp at hrs
      subst this
      simp [hl]
  | cons r rest ih =>
    cases r with
    | error e =>
      simp only [brokerRepository.scanRows]
      constructor
      · intro h
        cases h
      · rintro ⟨rs, hrs, _⟩
        cases rs with
        | nil => simp at hrs
        | cons _ _ => simp at hrs
    | ok row =>
      simp only [brokerRepository.scanRows]
      rw [ih]
      constructor
      · rintro ⟨rs, hrs, hl⟩
        exact ⟨row :: rs, by simp [hrs], by simp [hl]⟩
      · rintro ⟨rs, hrs, hl⟩
        cases rs with
        | nil => simp at hrs
        | cons x xs =>
          simp only [List.map_cons, List.cons.injEq, Except.ok.injEq] at hrs
          obtain ⟨hx, hxs⟩ := hrs
          subst hx
          exact ⟨xs, hxs, by simp [hl]⟩

/-- C8: `brokerRepository.Get` reports an empty result as an error. It returns
`NonExistentErr(sql.ErrNoRows)` with a nil list exactly when the query succeeds and
yields no rows; whenever it returns a nil error the list is non-empty and holds the
scanned entity of each row, in row order; a query error is returned unchanged. -/
theorem brokerRepository_Get_spec (db : SqlDB) (filter : Filter) (skip take : Option Int) :
    ((brokerRepository.Get db filter skip take).1 = ([], some (.nonExistent sqlErrNoRows)) ↔
      db.query (brokerRepository.getQuery (brokerRepository.whereClause filter skip take)) = .ok []) ∧
    ((brokerRepository.Get db filter skip take).1.2 = none →
      (brokerRepository.Get db filter skip take).1.1 ≠ [] ∧
      ∃ rs : List BrokerRow,
        db.query (brokerRepository.getQuery (brokerRepository.whereClause filter skip take)) =
          .ok (rs.map Except.ok) ∧
        (brokerRepository.Get db filter skip take).1.1 = rs.map brokerRepository.scanBroker ∧
        (brokerRepository.Get db filter skip take).1.1.length = rs.length) ∧
    (∀ e, db.query (brokerRepository.getQuery (brokerRepository.whereClause filter skip take)) =
        .error e →
      (brokerRepository.Get db filter skip take).1 = ([], some (.sql e))) := by
  unfold brokerRepository.Get
  simp only
  generalize brokerRepository.getQuery (brokerRepository.whereClause filter skip take) = q
  cases hq : db.query q with
  | error e =>
    simp [sqlErrNoRows]
  | ok rows =>
    dsimp only
    cases hs : brokerRepository.scanRows rows [] with
    | error e =>
      have hne : rows ≠ [] := by
        rintro rfl
        simp [brokerRepository.scanRows] at hs
      simp [sqlErrNoRows, hne]
    | ok brokers =>
      obtain ⟨rs, hrs, hl⟩ := (scanRows_ok_iff rows [] brokers).mp hs
      simp only [List.nil_append] at hl
      subst hrs hl
      cases rs with
      | nil => simp
      | cons r rs' =>
        simp only [List.map_cons, List.length_cons, List.length_map]
        refine ⟨by simp, fun _ => ⟨by simp, r :: rs', by simp⟩, by simp⟩

/-- C8 at a database with an empty table, one with one row and one that fails. -/
theorem brokerRepository_Get_spec_witness :
    (brokerRepository.Get healthyDB [] none none).1 = ([], some (.nonExistent sqlErrNoRows)) ∧
      (brokerRepository.Get oneRowDB [] none none).1.1 ≠ [] ∧
      (brokerRepository.Get secondInsertFailsDB [] none none).1 =
        ([], some (.sql (.other "select error"))) :=
  ⟨(brokerRepository_Get_spec healthyDB [] none none).1.mpr rfl,
    ((brokerRepository_Get_spec oneRowDB [] none none).2.1 rfl).1,
    (brokerRepository_Get_spec secondInsertFailsDB [] none none).2.2 _ rfl⟩

theorem whereStep_empty (entry : String × FilterValue) :
    brokerRepository.whereStep "" entry = "WHERE " ++ filterCondition entry := by
  simp only [brokerRepository.whereStep, filterCondition, if_true, String.append_assoc]
  rfl

theorem where_prefix_ne_empty (acc : String) : "WHERE " ++ acc ≠ "" := by
  intro h
  have h2 := congrArg String.length h
  simp only [String.length_append] at h2
  have h3 : "WHERE ".length = 6 := by decide
  have h4 : "".length = 0 := by decide
  omega

theorem whereStep_nonempty (acc : String) (entry : String × FilterValue) :
    brokerRepository.whereStep ("WHERE " ++ acc) entry =
      "WHERE " ++ (acc ++ " AND " ++ filterCondition entry) := by
  simp only [brokerRepository.whereStep, filterCondition, where_prefix_ne_empty, if_false,
    String.append_assoc]
  rfl

theorem foldl_whereStep (l : Filter) (acc : String) :
    l.foldl brokerRepository.whereStep ("WHERE " ++ acc) =
      "WHERE " ++ String.intercalate.go acc " AND " (l.map filterCondition) := by
  induction l generalizing acc with
  | nil => simp [String.intercalate.go]
  | cons e es ih =>
    simp only [List.foldl_cons, List.map_cons, String.intercalate.go, whereStep_nonempty]
    exact ih _

theorem foldl_whereStep_filter (filter : Filter) :
    filter.foldl brokerRepository.whereStep "" =
      if filter = [] then ""
      else "WHERE " ++ String.intercalate " AND " (filter.map filterCondition) := by
  cases filter with
  | nil => rfl
  | cons e es =>
    simp only [List.foldl_cons, whereStep_empty, foldl_whereStep, List.map_cons,
      String.intercalate, reduceCtorEq, if_false]

/-- C4: the filter clause built by `brokerRepository.Get` is a fixed function of its
inputs. For the entries of the filter in iteration order and optional skip and take,
the clause is empty for an empty filter and otherwise `WHERE` followed by one
condition `k = 'v'` per entry, the conditions joined by ` AND ` (so n conditions and
n-1 joiners); then comes ` OFFSET s` when skip is given and then ` LIMIT t` when take
is given. With an empty filter and no skip or take the clause is empty, and the clause
is the one placed in the single query `Get` issues. -/
theorem brokerRepository_whereClause_spec (filter : Filter) (skip take : Option Int) :
    brokerRepository.whereClause filter skip take =
        (if filter = [] then ""
          else "WHERE " ++ String.intercalate " AND " (filter.map filterCondition))
        ++ (match skip with
            | some s => " OFFSET " ++ toString s
            | none => "")
        ++ (match take with
            | some t => " LIMIT " ++ toString t
            | none => "") ∧
      (filter.map filterCondition).length = filter.length ∧
      (∀ (i : Nat) (e : String × FilterValue), filter[i]? = some e →
        (filter.map filterCondition)[i]? = some (e.1 ++ " = '" ++ e.2.format ++ "'")) ∧
      brokerRepository.whereClause [] none none = "" ∧
      (∀ db : SqlDB, (brokerRepository.Get db filter skip take).2 =
        [.query (brokerRepository.getQuery (brokerRepository.whereClause filter skip take))]) := by
  refine ⟨?_, by simp, ?_, rfl, ?_⟩
  · unfold brokerRepository.whereClause
    simp only [foldl_whereStep_filter]
    cases skip <;> cases take <;> simp [String.append_assoc]
  · intro i e he
    simp [List.getElem?_map, he, filterCondition]
  · intro db
    unfold brokerRepository.Get
    dsimp only
    cases db.query (brokerRepository.getQuery (brokerRepository.whereClause filter skip take)) with
    | error e => rfl
    | ok rows =>
      dsimp only
      cases brokerRepository.scanRows rows [] with
      | error e => rfl
      | ok brokers =>
        dsimp only
        split <;> rfl

/-- The clause and the query text of the filter, skip and take of the repository test. -/
theorem brokerRepository_whereClause_example :
    brokerRepository.whereClause [("slug", .str "test-email"), ("name", .str "test-name")]
        (some 1) (some 1) =
      "WHERE slug = 'test-email' AND name = 'test-name' OFFSET 1 LIMIT 1" ∧
    brokerRepository.whereClause [] (some 2) none = " OFFSET 2" ∧
    brokerRepository.getQuery (brokerRepository.whereClause [("slug", .str "a")] none none) =
      "\n\tSELECT brokerid, extid, name, description, slug, created_at, updated_at\n\t    FROM broker WHERE slug = 'a';\n\t" := by
  decide

theorem createManyLoop_all_ok (db : SqlDB) (rest : List Broker) (k : Nat) (result : List String)
    (calls : List DbCall)
    (hok : ∀ (j : Nat) (b : Broker), rest[j]? = some b →
      ∃ id, brokerRepository.insertAnswer db (k + j) b = .ok id) :
    ∃ ids : List String, ids.length = rest.length ∧
      (∀ (j : Nat) (b : Broker), rest[j]? = some b →
        brokerRepository.insertAnswer db (k + j) b = .ok (ids.getD j "")) ∧
      brokerRepository.createManyLoop db k rest result calls =
        match db.commit with
        | some err =>
          (([], some (.sql err)), calls ++ rest.map brokerRepository.insertCall ++ [.commit])
        | none =>
          ((result ++ ids, none), calls ++ rest.map brokerRepository.insertCall ++ [.commit]) := by
  induction rest generalizing k result calls with
  | nil =>
    refine ⟨[], rfl, by simp, ?_⟩
    simp only [brokerRepository.createManyLoop, List.map_nil, List.append_nil]
  | cons b bs ih =>
    obtain ⟨id, hid⟩ := hok 0 b (by simp)
    have hok2 : ∀ (j : Nat) (c : Broker), bs[j]? = some c →
        ∃ id, brokerRepository.insertAnswer db (k + 1 + j) c = .ok id := by
      intro j c hc
      have := hok (j + 1) c (by simpa using hc)
      rwa [show k + (j + 1) = k + 1 + j by omega] at this
    obtain ⟨ids, hlen, hids, hloop⟩ :=
      ih (k + 1) (result ++ [id]) (calls ++ [brokerRepository.insertCall b]) hok2
    refine ⟨id :: ids, by simp [hlen], ?_, ?_⟩
    · intro j c hc
      cases j with
      | zero =>
        simp only [List.getElem?_cons_zero, Option.some.injEq] at hc
        subst hc
        simpa using hid
      | succ j =>
        have := hids j c (by simpa using hc)
        rw [show k + (j + 1) = k + 1 + j by omega]
        simpa using this
    · have hid2 : db.scanID k brokerRepository.insertManyQuery (brokerRepository.insertArgs b) =
          .ok id := by simpa [brokerRepository.insertAnswer] using hid
      simp only [brokerRepository.createManyLoop, hid2, hloop, List.map_cons, List.append_assoc,
        List.singleton_append]

theorem createManyLoop_fails (db : SqlDB) (rest : List Broker) (k : Nat) (result : List String)
    (calls : List DbCall) (i : Nat) (b : Broker) (err : SqlError)
    (hok : ∀ (j : Nat) (c : Broker), j < i → rest[j]? = some c →
      ∃ id, brokerRepository.insertAnswer db (k + j) c = .ok id)
    (hb : rest[i]? = some b) (herr : brokerRepository.insertAnswer db (k + i) b = .error err) :
    brokerRepository.createManyLoop db k rest result calls =
      (([], some (.sql err)),
        calls ++ (rest.take (i + 1)).map brokerRepository.insertCall ++ [.rollback]) := by
  induction rest generalizing k result calls i with
  | nil => simp at hb
  | cons c cs ih =>
    cases i with
    | zero =>
      simp only [List.getElem?_cons_zero, Option.some.injEq] at hb
      subst hb
      have h2 : db.scanID k brokerRepository.insertManyQuery (brokerRepository.insertArgs c) =
          .error err := by simpa [brokerRepository.insertAnswer] using herr
      simp [brokerRepository.createManyLoop, h2]
    | succ i =>
      obtain ⟨id, hid⟩ := hok 0 c (by omega) (by simp)
      have hid2 : db.scanID k brokerRepository.insertManyQuery (brokerRepository.insertArgs c) =
          .ok id := by simpa [brokerRepository.insertAnswer] using hid
      have hok2 : ∀ (j : Nat) (d : Broker), j < i → cs[j]? = some d →
          ∃ id, brokerRepository.insertAnswer db (k + 1 + j) d = .ok id := by
        intro j d hj hd
        have := hok (j + 1) d (by omega) (by simpa using hd)
        rwa [show k + (j + 1) = k + 1 + j by omega] at this
      have hb2 : cs[i]? = some b := by simpa using hb
      have herr2 : brokerRepository.insertAnswer db (k + 1 + i) b = .error err := by
        rwa [show k + 1 + i = k + (i + 1) by omega]
      have := ih (k + 1) (result ++ [id]) (calls ++ [brokerRepository.insertCall c]) i hok2 hb2 herr2
      simp only [brokerRepository.createManyLoop, hid2, this, List.take_succ_cons, List.map_cons,
        List.append_assoc, List.singleton_append]

theorem createManyLoop_commit_mem (db : SqlDB) (rest : List Broker) (k : Nat) (result : List String)
    (calls : List DbCall) (hcalls : DbCall.commit ∉ calls)
    (hmem : DbCall.commit ∈ (brokerRepository.createManyLoop db k rest result calls).2) :
    ∀ (j : Nat) (b : Broker), rest[j]? = some b →
      ∃ id, brokerRepository.insertAnswer db (k + j) b = .ok id := by
  induction rest generalizing k result calls with
  | nil => simp
  | cons c cs ih =>
    intro j b hb
    cases hc : db.scanID k brokerRepository.insertManyQuery (brokerRepository.insertArgs c) with
    | error err =>
      simp [brokerRepository.createManyLoop, hc, hcalls, brokerRepository.insertCall] at hmem
    | ok id =>
      simp only [brokerRepository.createManyLoop, hc] at hmem
      have hcalls2 : DbCall.commit ∉ calls ++ [brokerRepository.insertCall c] := by
        simp [hcalls, brokerRepository.insertCall]
      have h2 := ih (k + 1) (result ++ [id]) (calls ++ [brokerRepository.insertCall c]) hcalls2 hmem
      cases j with
      | zero =>
        simp only [List.getElem?_cons_zero, Option.some.injEq] at hb
        subst hb
        exact ⟨id, by simpa [brokerRepository.insertAnswer] using hc⟩
      | succ j =>
        have := h2 j b (by simpa using hb)
        rwa [show k + 1 + j = k + (j + 1) by omega] at this

/-- C3: `brokerRepository.CreateMany` is atomic, for every list of entities and every
behaviour of the database. The transaction is committed only if it was opened and
every insert succeeded. If the i-th insert is the first to fail, the calls made are
the opening of the transaction, the inserts up to the i-th and a rollback, no commit
is among them, and the error of that insert is returned with no ids. If opening the
transaction fails, that error is returned and no insert is attempted. If every insert
succeeds and the commit fails, the error of the commit is returned with no ids. -/
theorem brokerRepository_CreateMany_atomic (db : SqlDB) (brokers : List Broker) :
    (DbCall.commit ∈ (brokerRepository.CreateMany db brokers).2 →
      db.beginTx = none ∧
      ∀ (i : Nat) (b : Broker), brokers[i]? = some b →
        ∃ id, brokerRepository.insertAnswer db i b = .ok id) ∧
    (∀ (i : Nat) (b : Broker) (err : SqlError), db.beginTx = none →
      (∀ (j : Nat) (c : Broker), j < i → brokers[j]? = some c →
        ∃ id, brokerRepository.insertAnswer db j c = .ok id) →
      brokers[i]? = some b → brokerRepository.insertAnswer db i b = .error err →
      brokerRepository.CreateMany db brokers =
        (([], some (.sql err)),
          [.beginTx] ++ (brokers.take (i + 1)).map brokerRepository.insertCall ++ [.rollback]) ∧
      DbCall.commit ∉ (brokerRepository.CreateMany db brokers).2) ∧
    (∀ err : SqlError, db.beginTx = some err →
      brokerRepository.CreateMany db brokers = (([], some (.sql err)), [.beginTx])) ∧
    (∀ err : SqlError, db.beginTx = none →
      (∀ (i : Nat) (b : Broker), brokers[i]? = some b →
        ∃ id, brokerRepository.insertAnswer db i b = .ok id) →
      db.commit = some err →
      (brokerRepository.CreateMany db brokers).1 = ([], some (.sql err))) := by
  refine ⟨?_, ?_, ?_, ?_⟩
  · intro hmem
    cases hb : db.beginTx with
    | some err => simp [brokerRepository.CreateMany, hb] at hmem
    | none =>
      simp only [brokerRepository.CreateMany, hb] at hmem
      refine ⟨rfl, ?_⟩
      intro i b hi
      have := createManyLoop_commit_mem db brokers 0 [] [.beginTx] (by simp) hmem i b hi
      simpa using this
  · intro i b err hb hok hi herr
    have hloop := createManyLoop_fails db brokers 0 [] [.beginTx] i b err
      (by simpa using hok) hi (by simpa using herr)
    have heq : brokerRepository.CreateMany db brokers =
        (([], some (.sql err)),
          [.beginTx] ++ (brokers.take (i + 1)).map brokerRepository.insertCall ++ [.rollback]) := by
      simp only [brokerRepository.CreateMany, hb, hloop]
    refine ⟨heq, ?_⟩
    rw [heq]
    have hnot : DbCall.commit ∉ (brokers.take (i + 1)).map brokerRepository.insertCall := by
      intro hm
      obtain ⟨x, _, hx⟩ := List.mem_map.mp hm
      simp [brokerRepository.insertCall] at hx
    simp only [List.mem_append, List.mem_singleton, reduceCtorEq, or_false, false_or]
    exact hnot
  · intro err hb
    simp [brokerRepository.CreateMany, hb]
  · intro err hb hok hc
    obtain ⟨ids, _, _, hloop⟩ := createManyLoop_all_ok db brokers 0 [] [.beginTx] (by simpa using hok)
    simp only [brokerRepository.CreateMany, hb, hloop, hc]

/-- C3 at a database whose second insert fails, one that cannot open a transaction
and one that fails to commit, each for a list of three entities. -/
theorem brokerRepository_CreateMany_atomic_witness :
    (brokerRepository.CreateMany secondInsertFailsDB [storedBroker, storedBroker, storedBroker] =
        (([], some (.sql (.other "insert error"))),
          [.beginTx] ++
            ([storedBroker, storedBroker, storedBroker].take (1 + 1)).map brokerRepository.insertCall ++
            [.rollback]) ∧
      DbCall.commit ∉
        (brokerRepository.CreateMany secondInsertFailsDB [storedBroker, storedBroker, storedBroker]).2) ∧
    brokerRepository.CreateMany beginFailsDB [storedBroker, storedBroker, storedBroker] =
      (([], some (.sql (.other "begin error"))), [.beginTx]) ∧
    (brokerRepository.CreateMany commitFailsDB [storedBroker, storedBroker, storedBroker]).1 =
      ([], some (.sql (.other "commit error"))) :=
  ⟨(brokerRepository_CreateMany_atomic secondInsertFailsDB
      [storedBroker, storedBroker, storedBroker]).2.1 1 storedBroker (.other "insert error") rfl
      (by
        intro j c hj _
        have hj0 : j = 0 := by omega
        subst hj0
        exact ⟨"id-0", rfl⟩)
      rfl rfl,
    (brokerRepository_CreateMany_atomic beginFailsDB
      [storedBroker, storedBroker, storedBroker]).2.2.1 (.other "begin error") rfl,
    (brokerRepository_CreateMany_atomic commitFailsDB
      [storedBroker, storedBroker, storedBroker]).2.2.2 (.other "commit error") rfl
      (fun i _ _ => ⟨"id-" ++ toString i, rfl⟩) rfl⟩

/-! ## The broker service: update and delete -/

/-- C11: for every id and every update request, when the repository's `GetByID`
answers with a NonExistent error, `brokerService.Update` returns a NonExistent error
whose message is `ID <ID> not found`; the lookup is the only call it makes, so the
repository's `Update` is never called. -/
theorem brokerService_Update_not_found (repo : BrokerRepository) (now : Time) (ID : String)
    (req : UpdateBrokerReq) (e : Error) (hget : repo.GetByID ID = .error e)
    (hne : e.isNonExistent = true) :
    (∃ err, (brokerService.Update repo now ID req).1 = some err ∧ err.isNonExistent = true ∧
      err.message = "ID " ++ ID ++ " not found") ∧
    (brokerService.Update repo now ID req).2 = [.getByID ID] ∧
    (∀ (id : String) (b : Broker), RepoCall.update id b ∉ (brokerService.Update repo now ID req).2) := by
  have hupd : brokerService.Update repo now ID req =
      (some (.nonExistent (.plain ("ID " ++ ID ++ " not found"))), [.getByID ID]) := by
    unfold brokerService.Update brokerService.GetByID
    rw [hget]
    simp [hne]
  rw [hupd]
  refine ⟨⟨_, rfl, rfl, rfl⟩, rfl, ?_⟩
  intro id b hmem
  simp at hmem

/-- C11 at the empty request of the service test and a repository that holds nothing. -/
theorem brokerService_Update_not_found_witness :
    (∃ err, (brokerService.Update emptyRepository ⟨7⟩ "non-existent-id" emptyUpdateReq).1 = some err ∧
      err.isNonExistent = true ∧ err.message = "ID " ++ "non-existent-id" ++ " not found") ∧
    (brokerService.Update emptyRepository ⟨7⟩ "non-existent-id" emptyUpdateReq).2 =
      [.getByID "non-existent-id"] ∧
    (∀ (id : String) (b : Broker),
      RepoCall.update id b ∉
        (brokerService.Update emptyRepository ⟨7⟩ "non-existent-id" emptyUpdateReq).2) :=
  brokerService_Update_not_found emptyRepository ⟨7⟩ "non-existent-id" emptyUpdateReq
    (.nonExistent sqlErrNoRows) rfl rfl

/-- C12: for every id, `brokerService.Delete` calls the repository's `Delete` once;
it returns nil when the repository returns nil, a NonExistent error with message
`ID <ID> not found` when the repository returns a NonExistent error, and any other
repository error unchanged. -/
theorem brokerService_Delete_spec (repo : BrokerRepository) (ID : String) :
    (brokerService.Delete repo ID).2 = [.delete ID] ∧
    (repo.Delete ID = none → (brokerService.Delete repo ID).1 = none) ∧
    (∀ e, repo.Delete ID = some e → e.isNonExistent = true →
      ∃ err, (brokerService.Delete repo ID).1 = some err ∧ err.isNonExistent = true ∧
        err.message = "ID " ++ ID ++ " not found") ∧
    (∀ e, repo.Delete ID = some e → e.isNonExistent = false →
      (brokerService.Delete repo ID).1 = some e) := by
  refine ⟨?_, ?_, ?_, ?_⟩
  · unfold brokerService.Delete
    cases hd : repo.Delete ID with
    | none => rfl
    | some e => by_cases hne : e.isNonExistent = true <;> simp [hne]
  · intro hd
    simp [brokerService.Delete, hd]
  · intro e hd hne
    exact ⟨.nonExistent (.plain ("ID " ++ ID ++ " not found")),
      by simp [brokerService.Delete, hd, hne], rfl, rfl⟩
  · intro e hd hne
    simp [brokerService.Delete, hd, hne]

/-- C12 at the ids of the service tests. -/
theorem brokerService_Delete_spec_witness :
    (brokerService.Delete singleRepository "test-id").1 = none ∧
    (∃ err, (brokerService.Delete singleRepository "non-existent-id").1 = some err ∧
      err.isNonExistent = true ∧ err.message = "ID " ++ "non-existent-id" ++ " not found") ∧
    (brokerService.Delete failingRepository "test-id").1 = some (.plain "repository-error") :=
  ⟨(brokerService_Delete_spec singleRepository "test-id").2.1 rfl,
    (brokerService_Delete_spec singleRepository "non-existent-id").2.2.1 _ rfl rfl,
    (brokerService_Delete_spec failingRepository "test-id").2.2.2 _ rfl rfl⟩

/-! ## The postgres broker repository: GetByID, Update and Delete -/

/-- C13: `brokerRepository.GetByID` maps a missing row to a NonExistent error. When
scanning the single row fails with `sql.ErrNoRows` the result is a nil entity with
`NonExistentErr(sql.ErrNoRows)`; any other error of the query or of the scan is
returned unchanged with a nil entity; on success the result is the non-nil entity
scanned from the row, with a nil error. -/
theorem brokerRepository_GetByID_spec (conn : SqlConn) (ID : String) :
    (conn.queryRowScan brokerRepository.getByIDQuery [.str ID] = .error .errNoRows →
      brokerRepository.GetByID conn ID = (none, some (.nonExistent sqlErrNoRows))) ∧
    (∀ e, conn.queryRowScan brokerRepository.getByIDQuery [.str ID] = .error e →
      e ≠ .errNoRows → brokerRepository.GetByID conn ID = (none, some (.sql e))) ∧
    (∀ r, conn.queryRowScan brokerRepository.getByIDQuery [.str ID] = .ok r →
      ∃ b, brokerRepository.GetByID conn ID = (some b, none) ∧
        b = brokerRepository.scanBroker r) := by
  refine ⟨?_, ?_, ?_⟩
  · intro h
    simp [brokerRepository.GetByID, h, SqlError.isErrNoRows, sqlErrNoRows]
  · intro e h hne
    cases e with
    | errNoRows => exact absurd rfl hne
    | other msg => simp [brokerRepository.GetByID, h, SqlError.isErrNoRows]
  · intro r h
    exact ⟨_, by simp [brokerRepository.GetByID, h], rfl⟩

/-- C13 at an empty table, a failing connection and a table that holds the row. -/
theorem brokerRepository_GetByID_spec_witness :
    brokerRepository.GetByID missingConn "" = (none, some (.nonExistent sqlErrNoRows)) ∧
    brokerRepository.GetByID brokenConn "" = (none, some (.sql (.other "select error"))) ∧
    (∃ b, brokerRepository.GetByID foundConn "test-id" = (some b, none) ∧
      b = brokerRepository.scanBroker storedRow) :=
  ⟨(brokerRepository_GetByID_spec missingConn "").1 rfl,
    (brokerRepository_GetByID_spec brokenConn "").2.1 _ rfl (by decide),
    (brokerRepository_GetByID_spec foundConn "test-id").2.2 storedRow rfl⟩

/-- C14: `brokerRepository.Update` and `brokerRepository.Delete` alike, when
`RowsAffected` itself succeeds: an error of executing the statement is returned
unchanged; a statement that succeeds and reports fewer than one affected row gives
`NonExistentErr(sql.ErrNoRows)`; one that reports at least one affected row gives nil. -/
theorem brokerRepository_Update_Delete_spec (conn : SqlConn) (ID : String) (b : Broker) :
    ((∀ e, conn.run brokerRepository.updateQuery (brokerRepository.updateArgs ID b) = .error e →
        brokerRepository.Update conn ID b = some (.sql e)) ∧
      (∀ r, conn.run brokerRepository.updateQuery (brokerRepository.updateArgs ID b) = .ok r →
        r.err = none → r.rows < 1 →
        brokerRepository.Update conn ID b = some (.nonExistent sqlErrNoRows)) ∧
      (∀ r, conn.run brokerRepository.updateQuery (brokerRepository.updateArgs ID b) = .ok r →
        r.err = none → 1 ≤ r.rows → brokerRepository.Update conn ID b = none)) ∧
    ((∀ e, conn.run brokerRepository.deleteQuery [.str ID] = .error e →
        brokerRepository.Delete conn ID = some (.sql e)) ∧
      (∀ r, conn.run brokerRepository.deleteQuery [.str ID] = .ok r →
        r.err = none → r.rows < 1 →
        brokerRepository.Delete conn ID = some (.nonExistent sqlErrNoRows)) ∧
      (∀ r, conn.run brokerRepository.deleteQuery [.str ID] = .ok r →
        r.err = none → 1 ≤ r.rows → brokerRepository.Delete conn ID = none)) := by
  refine ⟨⟨?_, ?_, ?_⟩, ⟨?_, ?_, ?_⟩⟩
  · intro e h
    simp [brokerRepository.Update, h]
  · intro r h _ hrows
    simp [brokerRepository.Update, h, hrows]
  · intro r h _ hrows
    have : ¬ r.rows < 1 := by omega
    simp [brokerRepository.Update, h, this]
  · intro e h
    simp [brokerRepository.Delete, h]
  · intro r h herr hrows
    simp [brokerRepository.Delete, h, herr, hrows]
  · intro r h herr hrows
    have : ¬ r.rows < 1 := by omega
    simp [brokerRepository.Delete, h, herr, this]

/-- C14 at a failing connection, an empty table and a table that holds the row. -/
theorem brokerRepository_Update_Delete_spec_witness :
    (brokerRepository.Update brokenConn "test-id" storedBroker = some (.sql (.other "update error")) ∧
      brokerRepository.Update missingConn "test-id" storedBroker = some (.nonExistent sqlErrNoRows) ∧
      brokerRepository.Update foundConn "test-id" storedBroker = none) ∧
    (brokerRepository.Delete brokenConn "test-id" = some (.sql (.other "update error")) ∧
      brokerRepository.Delete missingConn "test-id" = some (.nonExistent sqlErrNoRows) ∧
      brokerRepository.Delete foundConn "test-id" = none) :=
  ⟨⟨(brokerRepository_Update_Delete_spec brokenConn "test-id" storedBroker).1.1 _ rfl,
      (brokerRepository_Update_Delete_spec missingConn "test-id" storedBroker).1.2.1 ⟨0, none⟩ rfl rfl
        (by decide),
      (brokerRepository_Update_Delete_spec foundConn "test-id" storedBroker).1.2.2 ⟨1, none⟩ rfl rfl
        (by decide)⟩,
    ⟨(brokerRepository_Update_Delete_spec brokenConn "test-id" storedBroker).2.1 _ rfl,
      (brokerRepository_Update_Delete_spec missingConn "test-id" storedBroker).2.2.1 ⟨0, none⟩ rfl rfl
        (by decide),
      (brokerRepository_Update_Delete_spec foundConn "test-id" storedBroker).2.2.2 ⟨1, none⟩ rfl rfl
        (by decide)⟩⟩

/-! ## The postgres user repository -/

theorem userRepository_createManyLoop_all_ok (db : SqlDB) (rest : List User) (k : Nat)
    (result : List String) (calls : List DbCall) (hcommit : db.commit = none)
    (hok : ∀ (j : Nat) (u : User), rest[j]? = some u →
      ∃ id, userRepository.insertAnswer db (k + j) u = .ok id) :
    ∃ ids : List String, ids.length = rest.length ∧
      (∀ (j : Nat) (u : User), rest[j]? = some u →
        ∃ id, ids[j]? = some id ∧ userRepository.insertAnswer db (k + j) u = .ok id) ∧
      userRepository.createManyLoop db k rest result calls =
        ((result ++ ids, none), calls ++ rest.map userRepository.insertCall ++ [.commit]) := by
  induction rest generalizing k result calls with
  | nil =>
    refine ⟨[], rfl, by simp, ?_⟩
    simp [userRepository.createManyLoop, hcommit]
  | cons u us ih =>
    obtain ⟨id, hid⟩ := hok 0 u (by simp)
    have hok2 : ∀ (j : Nat) (v : User), us[j]? = some v →
        ∃ id, userRepository.insertAnswer db (k + 1 + j) v = .ok id := by
      intro j v hv
      have := hok (j + 1) v (by simpa using hv)
      rwa [show k + (j + 1) = k + 1 + j by omega] at this
    obtain ⟨ids, hlen, hids, hloop⟩ :=
      ih (k + 1) (result ++ [id]) (calls ++ [userRepository.insertCall u]) hok2
    refine ⟨id :: ids, by simp [hlen], ?_, ?_⟩
    · intro j v hv
      cases j with
      | zero =>
        simp only [List.getElem?_cons_zero, Option.some.injEq] at hv
        subst hv
        exact ⟨id, by simp, by simpa using hid⟩
      | succ j =>
        obtain ⟨id2, h1, h2⟩ := hids j v (by simpa using hv)
        refine ⟨id2, by simpa using h1, ?_⟩
        rw [show k + (j + 1) = k + 1 + j by omega]
        exact h2
    · have hid2 : db.scanID k userRepository.insertManyQuery (userRepository.insertArgs u) =
          .ok id := by simpa [userRepository.insertAnswer] using hid
      simp only [userRepository.createManyLoop, hid2, hloop, List.map_cons, List.append_assoc,
        List.singleton_append]

/-- C15: for every list of n users, when the transaction opens and every insert and
the commit succeed, `userRepository.CreateMany` returns exactly n ids with a nil
error, the i-th id being the id the database returned for the i-th user of the input,
and the calls it made are one begin, the n inserts in input order and one commit. -/
theorem userRepository_CreateMany_ok (db : SqlDB) (users : List User)
    (hbegin : db.beginTx = none)
    (hok : ∀ (i : Nat) (u : User), users[i]? = some u →
      ∃ id, userRepository.insertAnswer db i u = .ok id)
    (hcommit : db.commit = none) :
    ∃ ids : List String,
      userRepository.CreateMany db users =
        ((ids, none), [.beginTx] ++ users.map userRepository.insertCall ++ [.commit]) ∧
      ids.length = users.length ∧
      (∀ (i : Nat) (u : User), users[i]? = some u →
        ∃ id, ids[i]? = some id ∧
          db.scanID i userRepository.insertManyQuery (userRepository.insertArgs u) = .ok id) := by
  obtain ⟨ids, hlen, hids, hloop⟩ :=
    userRepository_createManyLoop_all_ok db users 0 [] [.beginTx] hcommit (by simpa using hok)
  refine ⟨ids, ?_, hlen, ?_⟩
  · simp only [userRepository.CreateMany, hbegin, hloop, List.nil_append]
  · intro i u hu
    obtain ⟨id, h1, h2⟩ := hids i u hu
    exact ⟨id, h1, by simpa [userRepository.insertAnswer] using h2⟩

/-- C15 at two users and a database where every statement succeeds. -/
theorem userRepository_CreateMany_ok_witness :
    ∃ ids : List String,
      userRepository.CreateMany healthyDB [userOne, userTwo] =
        ((ids, none),
          [.beginTx] ++ [userOne, userTwo].map userRepository.insertCall ++ [.commit]) ∧
      ids.length = [userOne, userTwo].length ∧
      (∀ (i : Nat) (u : User), [userOne, userTwo][i]? = some u →
        ∃ id, ids[i]? = some id ∧
          healthyDB.scanID i userRepository.insertManyQuery (userRepository.insertArgs u) = .ok id) :=
  userRepository_CreateMany_ok healthyDB [userOne, userTwo] rfl
    (fun i _ _ => ⟨"id-" ++ toString i, rfl⟩) rfl

/-- The ids and the calls of `userRepository.CreateMany` for two users on a database
where every statement succeeds. -/
theorem userRepository_CreateMany_example :
    userRepository.CreateMany healthyDB [userOne, userTwo] =
      ((["id-0", "id-1"], none),
        [.beginTx, userRepository.insertCall userOne, userRepository.insertCall userTwo, .commit]) := by
  decide

/-! ## The postgres holding repository -/

set_option maxRecDepth 100000 in
/-- C16, evaluated: the SELECT statements of `holdingRepository.GetByID` and
`holdingRepository.Get` name sixteen columns, the second being `portfolioidbrokerid`,
while `Scan` is given seventeen destinations; the names are not the seventeen columns
of a holding, and `Scan` of such a result fails on the number of destinations. The
SELECT of the broker repository names its seven columns. -/
theorem holdingRepository_select_columns_mismatch :
    selectColumns holdingRepository.getByIDQuery =
      ["holdingid", "portfolioidbrokerid", "extid", "name", "description", "slug", "trade_date",
        "trade_type", "quantity", "share_price", "exchange_rate", "exchange_currencyid",
        "brokerage_unit_price", "brokerage_currency", "created_at", "updated_at"] ∧
    selectColumns (holdingRepository.getQuery "") = selectColumns holdingRepository.getByIDQuery ∧
    (selectColumns holdingRepository.getByIDQuery).length = 16 ∧
    holdingRepository.scanDest.length = 17 ∧
    selectColumns holdingRepository.getByIDQuery ≠ holdingColumns ∧
    scanArityError (selectColumns holdingRepository.getByIDQuery).length
        holdingRepository.scanDest.length =
      some (.other "sql: expected 16 destination arguments in Scan, not 17") ∧
    selectColumns brokerRepository.getByIDQuery =
      ["brokerid", "extid", "name", "description", "slug", "created_at", "updated_at"] := by
  decide

/-! ## Validators of the models -/

theorem validationResult_eq_none_iff (msgs : List String) :
    validationResult msgs = none ↔ msgs = [] := by
  unfold validationResult
  cases msgs <;> simp

theorem validationResult_message (msgs : List String) (e : Error)
    (h : validationResult msgs = some e) :
    e = .validation (.plain (String.intercalate " | " msgs)) ∧
      e.message = String.intercalate " | " msgs := by
  unfold validationResult at h
  split at h
  · cases h
    exact ⟨rfl, rfl⟩
  · cases h

/-- C17: for every create request `r`, `r.Validate` returns no error if and only if
the external id, the name and the description of `r` are all non-empty; an error it
returns is a validation error with a non-empty message. -/
theorem CreateBrokerReq_Validate_spec (r : CreateBrokerReq) :
    (r.Validate = none ↔ r.Extid ≠ "" ∧ r.Name ≠ "" ∧ r.Description ≠ "") ∧
    (∀ e, r.Validate = some e → e.isValidation = true ∧ e.message ≠ "") := by
  constructor
  · unfold CreateBrokerReq.Validate
    rw [validationResult_eq_none_iff]
    unfold CreateBrokerReq.msgs
    by_cases h1 : r.Extid = "" <;> by_cases h2 : r.Name = "" <;>
      by_cases h3 : r.Description = "" <;> simp [h1, h2, h3]
  · intro e he
    refine ⟨validationResult_isValidation _ _ he, ?_⟩
    unfold CreateBrokerReq.Validate at he
    obtain ⟨_, hmsg⟩ := validationResult_message _ _ he
    rw [hmsg]
    have hne : r.msgs ≠ [] := by
      intro hnil
      rw [(validationResult_eq_none_iff _).mpr hnil] at he
      cases he
    unfold CreateBrokerReq.msgs at hne ⊢
    by_cases h1 : r.Extid = "" <;> by_cases h2 : r.Name = "" <;>
      by_cases h3 : r.Description = "" <;> simp [h1, h2, h3] at hne ⊢ <;> decide

/-- C17 at the invalid and the valid request of the tests. -/
theorem CreateBrokerReq_Validate_spec_witness :
    (invalidReqErr.isValidation = true ∧ invalidReqErr.message ≠ "") ∧ validReq.Validate = none :=
  ⟨(CreateBrokerReq_Validate_spec invalidReq).2 invalidReqErr (by decide),
    (CreateBrokerReq_Validate_spec validReq).1.mpr (by decide)⟩

theorem violatedMessages_cons (p : Prop) [Decidable p] (m : String) (rs : List (Bool × String)) :
    violatedMessages ((decide p, m) :: rs) = (if p then [m] else []) ++ violatedMessages rs := by
  by_cases h : p <;> simp [violatedMessages, h]

theorem violatedMessages_nil : violatedMessages [] = [] := rfl

theorem CreateHoldingReq_msgs_eq_rules (req : CreateHoldingReq) :
    req.msgs = violatedMessages req.rules := by
  unfold CreateHoldingReq.msgs CreateHoldingReq.rules
  simp only [violatedMessages_cons, violatedMessages_nil, List.append_nil, List.append_assoc]

set_option maxRecDepth 100000 in
/-- C18: for every holding create request, the messages `Validate` collects are
exactly the messages of the violated rules in the fixed order portfolio id, broker id,
external id, name, trade date, trade type, quantity, share price, exchange rate,
exchange currency id, brokerage unit price, brokerage currency; the text of a returned
error is these messages joined by ` | `; description and slug never contribute; the
zero-valued request yields all twelve messages, and a request that violates no rule
yields no error. -/
theorem CreateHoldingReq_Validate_spec (req : CreateHoldingReq) :
    req.Validate = validationResult (violatedMessages req.rules) ∧
    (∀ e, req.Validate = some e →
      e.isValidation = true ∧
      e.message = String.intercalate " | " (violatedMessages req.rules)) ∧
    (violatedMessages req.rules ≠ [] → ∃ e, req.Validate = some e) ∧
    (violatedMessages req.rules = [] → req.Validate = none) ∧
    (∀ d s : String, ({ req with Description := d, Slug := s } : CreateHoldingReq).Validate =
      req.Validate) ∧
    (violatedMessages CreateHoldingReq.zero.rules).length = 12 ∧
    CreateHoldingReq.zero.Validate = some (.validation (.plain
      "portfolio id cannot be empty | broker id cannot be empty | external id cannot be empty | name cannot be empty | trade date cannot be empty | trade type cannot be empty | quantity cannot be zero | share price cannot be zero | exchange rate cannot be zero | exchange currency id cannot be empty | brokerage unit price cannot be zero | brokerage currency cannot be empty")) := by
  have hv : req.Validate = validationResult (violatedMessages req.rules) := by
    unfold CreateHoldingReq.Validate
    rw [CreateHoldingReq_msgs_eq_rules]
  refine ⟨hv, ?_, ?_, ?_, ?_, by decide, by decide⟩
  · intro e he
    rw [hv] at he
    exact ⟨validationResult_isValidation _ _ he, (validationResult_message _ _ he).2⟩
  · intro hne
    rw [hv]
    cases hm : validationResult (violatedMessages req.rules) with
    | some e => exact ⟨e, rfl⟩
    | none => exact absurd ((validationResult_eq_none_iff _).mp hm) hne
  · intro hnil
    rw [hv]
    exact (validationResult_eq_none_iff _).mpr hnil
  · intro d s
    rfl

/-- C18 at the valid request of the model tests, which violates no rule. -/
theorem CreateHoldingReq_Validate_spec_witness : validHoldingReq.Validate = none :=
  (CreateHoldingReq_Validate_spec validHoldingReq).2.2.2.1 (by decide)

theorem filter_ite_singleton (p : Prop) [Decidable p] (m ext : String) (hm : m ≠ ext) :
    List.filter (fun x => decide (x ≠ ext)) (if p then [m] else []) = if p then [m] else [] := by
  by_cases h : p <;> simp [h, hm]

theorem filter_ite_same (p : Prop) [Decidable p] (ext : String) :
    List.filter (fun x => decide (x ≠ ext)) (if p then [ext] else []) = [] := by
  by_cases h : p <;> simp [h]

theorem UpdateHoldingReq_msgs_eq_filter (u : UpdateHoldingReq) (extid : String) :
    u.msgs = (u.toCreate extid).msgs.filter (fun m => decide (m ≠ "external id cannot be empty")) := by
  unfold UpdateHoldingReq.msgs CreateHoldingReq.msgs UpdateHoldingReq.toCreate
  simp only [List.filter_append, filter_ite_same, List.append_nil]
  rw [filter_ite_singleton _ _ _ (by decide), filter_ite_singleton _ _ _ (by decide),
    filter_ite_singleton _ _ _ (by decide), filter_ite_singleton _ _ _ (by decide),
    filter_ite_singleton _ _ _ (by decide), filter_ite_singleton _ _ _ (by decide),
    filter_ite_singleton _ _ _ (by decide), filter_ite_singleton _ _ _ (by decide),
    filter_ite_singleton _ _ _ (by decide), filter_ite_singleton _ _ _ (by decide),
    filter_ite_singleton _ _ _ (by decide)]

theorem CreateHoldingReq_msgs_nil_iff (c : CreateHoldingReq) :
    c.msgs = [] ↔
      c.Extid ≠ "" ∧
        c.msgs.filter (fun m => decide (m ≠ "external id cannot be empty")) = [] := by
  constructor
  · intro h
    refine ⟨?_, by simp [h]⟩
    intro hext
    have hmem : "external id cannot be empty" ∈ c.msgs := by
      unfold CreateHoldingReq.msgs
      simp [hext]
    rw [h] at hmem
    simp at hmem
  · rintro ⟨hext, hf⟩
    have hfilter : c.msgs.filter (fun m => decide (m ≠ "external id cannot be empty")) = c.msgs := by
      unfold CreateHoldingReq.msgs
      simp only [hext, if_false, List.append_nil, List.filter_append]
      rw [filter_ite_singleton _ _ _ (by decide), filter_ite_singleton _ _ _ (by decide),
        filter_ite_singleton _ _ _ (by decide), filter_ite_singleton _ _ _ (by decide),
        filter_ite_singleton _ _ _ (by decide), filter_ite_singleton _ _ _ (by decide),
        filter_ite_singleton _ _ _ (by decide), filter_ite_singleton _ _ _ (by decide),
        filter_ite_singleton _ _ _ (by decide), filter_ite_singleton _ _ _ (by decide),
        filter_ite_singleton _ _ _ (by decide)]
    rw [← hfilter]
    exact hf

/-- C19: `UpdateHoldingReq.Validate` applies the rules of `CreateHoldingReq.Validate`
except the external-id rule. For every assignment of the shared fields and every
external id, the messages of the update validator are the messages of the create
validator without `external id cannot be empty`, in the same order, and the text of its
error is these messages joined by ` | `; the update validator accepts a request if and
only if the create validator accepts the same fields with some non-empty external id,
and then it accepts them with every non-empty external id. -/
theorem UpdateHoldingReq_Validate_spec (u : UpdateHoldingReq) (extid : String) :
    u.msgs =
      (u.toCreate extid).msgs.filter (fun m => decide (m ≠ "external id cannot be empty")) ∧
    u.Validate = validationResult
      ((u.toCreate extid).msgs.filter (fun m => decide (m ≠ "external id cannot be empty"))) ∧
    (∀ e, u.Validate = some e →
      e.isValidation = true ∧
      e.message = String.intercalate " | "
        ((u.toCreate extid).msgs.filter (fun m => decide (m ≠ "external id cannot be empty")))) ∧
    (u.Validate = none ↔ ∃ x : String, x ≠ "" ∧ (u.toCreate x).Validate = none) ∧
    (u.Validate = none ↔ ∀ x : String, x ≠ "" → (u.toCreate x).Validate = none) := by
  have hmsgs := UpdateHoldingReq_msgs_eq_filter u
  have hcreate : ∀ x : String, (u.toCreate x).Validate = none ↔ x ≠ "" ∧ u.msgs = [] := by
    intro x
    unfold CreateHoldingReq.Validate
    rw [validationResult_eq_none_iff, CreateHoldingReq_msgs_nil_iff, ← hmsgs x]
    rfl
  have hupdate : u.Validate = none ↔ u.msgs = [] := by
    unfold UpdateHoldingReq.Validate
    exact validationResult_eq_none_iff _
  refine ⟨hmsgs extid, ?_, ?_, ?_, ?_⟩
  · unfold UpdateHoldingReq.Validate
    rw [← hmsgs extid]
  · intro e he
    unfold UpdateHoldingReq.Validate at he
    rw [← hmsgs extid]
    exact ⟨validationResult_isValidation _ _ he, (validationResult_message _ _ he).2⟩
  · rw [hupdate]
    constructor
    · intro h
      exact ⟨"Extid", by decide, (hcreate "Extid").mpr ⟨by decide, h⟩⟩
    · rintro ⟨x, _, hx⟩
      exact ((hcreate x).mp hx).2
  · rw [hupdate]
    constructor
    · intro h x hx
      exact (hcreate x).mpr ⟨hx, h⟩
    · intro h
      exact ((hcreate "Extid").mp (h "Extid" (by decide))).2

set_option maxRecDepth 100000 in
/-- The update validator on the zero-valued request: the eleven messages of the model test. -/
theorem UpdateHoldingReq_Validate_zero :
    UpdateHoldingReq.zero.Validate = some (.validation (.plain
      "portfolio id cannot be empty | broker id cannot be empty | name cannot be empty | trade date cannot be empty | trade type cannot be empty | quantity cannot be zero | share price cannot be zero | exchange rate cannot be zero | exchange currency id cannot be empty | brokerage unit price cannot be zero | brokerage currency cannot be empty")) ∧
    validUpdateHoldingReq.Validate = none := by
  decide

/-- C19 at the valid update request of the model tests. -/
theorem UpdateHoldingReq_Validate_spec_witness :
    ∃ x : String, x ≠ "" ∧ (validUpdateHoldingReq.toCreate x).Validate = none :=
  (UpdateHoldingReq_Validate_spec validUpdateHoldingReq "").2.2.2.1.mp (by decide)

/-- C20: for every transaction create request, `Validate` reports
`either stock id or cryptocurrency id must be provided` if and only if the stock id and
the cryptocurrency id are both empty; the text of a returned error is the collected
messages joined by ` | `; and `Validate` returns no error exactly for the requests with
at least one of the two ids set, a non-zero quantity, a non-empty transaction price and
a non-zero transaction date. -/
theorem CreateTransactionReq_Validate_spec (req : CreateTransactionReq) :
    ("either stock id or cryptocurrency id must be provided" ∈ req.msgs ↔
      req.StockID = "" ∧ req.CryptocurrencyID = "") ∧
    ((∃ e, req.Validate = some e ∧
        "either stock id or cryptocurrency id must be provided" ∈ req.msgs) ↔
      req.StockID = "" ∧ req.CryptocurrencyID = "") ∧
    (∀ e, req.Validate = some e →
      e.isValidation = true ∧ e.message = String.intercalate " | " req.msgs) ∧
    (req.Validate = none ↔
      (req.StockID ≠ "" ∨ req.CryptocurrencyID ≠ "") ∧ req.Quantity ≠ 0 ∧
        req.TransactionPrice ≠ "" ∧ req.TransactionDate ≠ Time.zero) := by
  have hmem : "either stock id or cryptocurrency id must be provided" ∈ req.msgs ↔
      req.StockID = "" ∧ req.CryptocurrencyID = "" := by
    unfold CreateTransactionReq.msgs
    by_cases h1 : req.StockID = "" ∧ req.CryptocurrencyID = "" <;>
      by_cases h2 : req.Quantity = 0 <;> by_cases h3 : req.TransactionPrice = "" <;>
      by_cases h4 : req.TransactionDate = Time.zero <;> simp [h1, h2, h3, h4]
  refine ⟨hmem, ?_, ?_, ?_⟩
  · constructor
    · rintro ⟨_, _, h⟩
      exact hmem.mp h
    · intro h
      have hm := hmem.mpr h
      cases hv : req.Validate with
      | some e => exact ⟨e, rfl, hm⟩
      | none =>
        unfold CreateTransactionReq.Validate at hv
        rw [(validationResult_eq_none_iff _).mp hv] at hm
        simp at hm
  · intro e he
    unfold CreateTransactionReq.Validate at he
    exact ⟨validationResult_isValidation _ _ he, (validationResult_message _ _ he).2⟩
  · unfold CreateTransactionReq.Validate
    rw [validationResult_eq_none_iff]
    unfold CreateTransactionReq.msgs
    by_cases h1 : req.StockID = "" <;> by_cases h5 : req.CryptocurrencyID = "" <;>
      by_cases h2 : req.Quantity = 0 <;> by_cases h3 : req.TransactionPrice = "" <;>
      by_cases h4 : req.TransactionDate = Time.zero <;> simp [h1, h2, h3, h4, h5]

/-- C20 at the valid and the zero-valued request of the model tests. -/
theorem CreateTransactionReq_Validate_spec_witness :
    validTransactionReq.Validate = none ∧
    (∃ e, CreateTransactionReq.zero.Validate = some e ∧
      "either stock id or cryptocurrency id must be provided" ∈ CreateTransactionReq.zero.msgs) :=
  ⟨(CreateTransactionReq_Validate_spec validTransactionReq).2.2.2.mpr (by decide),
    (CreateTransactionReq_Validate_spec CreateTransactionReq.zero).2.1.mpr (by decide)⟩

/-- The transaction validator on the zero-valued request: the four messages of the model test. -/
theorem CreateTransactionReq_Validate_zero :
    CreateTransactionReq.zero.Validate = some (.validation (.plain
      "either stock id or cryptocurrency id must be provided | quantity cannot be zero | transaction price cannot be empty | transaction date cannot be empty")) := by
  decide

/-! ## The HTTP layer -/

/-- C21: in the route tables built by `SetBrokerRoutes` and `SetUserRoutes`, every
GET, PATCH and DELETE route is wrapped in the JWT middleware with the configured
secret, every DELETE route requires the claim `admin = true`, and a route answers
without a token exactly when its method is POST; these are the create, create-many and
login routes. -/
theorem routes_jwt_gated (cfg : Config) :
    (∀ r ∈ SetBrokerRoutes cfg ++ SetUserRoutes cfg,
      (r.method = .GET ∨ r.method = .PATCH ∨ r.method = .DELETE →
        ∃ next claims, r.handler = .jwt (.plain next) cfg.JWTSecret claims) ∧
      (r.method = .DELETE →
        ∃ next claims, r.handler = .jwt (.plain next) cfg.JWTSecret claims ∧
          ("admin", true) ∈ claims) ∧
      (r.handler.isOpen = true ↔ r.method = .POST)) ∧
    ((SetBrokerRoutes cfg ++ SetUserRoutes cfg).filter (fun r => r.handler.isOpen)).map
        (fun r => (r.path, r.handler)) =
      [("/v1/broker", .plain "createBroker"), ("/v1/broker/many", .plain "createManyBrokers"),
       ("/v1/user/login", .plain "loginUser"), ("/v1/user", .plain "createUser"),
       ("/v1/user/many", .plain "createManyUsers")] := by
  constructor
  · intro r hr
    simp only [SetBrokerRoutes, SetUserRoutes, List.cons_append, List.nil_append, List.mem_cons,
      List.mem_singleton, List.not_mem_nil, or_false] at hr
    rcases hr with h | h | h | h | h | h | h | h | h | h | h | h | h | h | h <;>
      subst h <;> simp [Handler.isOpen] <;>
      exact ⟨_, _, ⟨rfl, rfl⟩, List.mem_cons_self _ _⟩
  · rfl

/-- C22: for every body that cannot be decoded into the request type of the
handler, `createBroker`, `createManyBrokers` and `updateBroker` answer with the error
response that carries the decoder's error, and make no call to the service; a call to
the service is made only with the request a successful decode returned. -/
theorem handlers_decode_before_service (s : BrokerService) (body : String) (id : String) :
    (∀ (decode : String → Except Error CreateBrokerReq) (e : Error), decode body = .error e →
      createBroker s decode (body, none) = (.error body e, [])) ∧
    (∀ (decode : String → Except Error (List CreateBrokerReq)) (e : Error),
      decode body = .error e → createManyBrokers s decode (body, none) = (.error body e, [])) ∧
    (∀ (decode : String → Except Error UpdateBrokerReq) (e : Error), decode body = .error e →
      updateBroker s decode id (body, none) = (.error body e, [])) ∧
    (∀ (decode : String → Except Error CreateBrokerReq) (read : String × Option Error),
      (createBroker s decode read).2 ≠ [] →
        ∃ b, read.2 = none ∧ decode read.1 = .ok b ∧
          (createBroker s decode read).2 = [.create b]) ∧
    (∀ (decode : String → Except Error (List CreateBrokerReq)) (read : String × Option Error),
      (createManyBrokers s decode read).2 ≠ [] →
        ∃ bs, read.2 = none ∧ decode read.1 = .ok bs ∧
          (createManyBrokers s decode read).2 = [.createMany bs]) ∧
    (∀ (decode : String → Except Error UpdateBrokerReq) (read : String × Option Error),
      (updateBroker s decode id read).2 ≠ [] →
        ∃ b, read.2 = none ∧ decode read.1 = .ok b ∧
          (updateBroker s decode id read).2 = [.update id b]) := by
  refine ⟨?_, ?_, ?_, ?_, ?_, ?_⟩
  · intro decode e h
    simp [createBroker, h]
  · intro decode e h
    simp [createManyBrokers, h]
  · intro decode e h
    simp [updateBroker, h]
  · rintro decode ⟨b, _ | err⟩ hne
    · cases hd : decode b with
      | error e => simp [createBroker, hd] at hne
      | ok req =>
        refine ⟨req, rfl, rfl, ?_⟩
        simp only [createBroker, hd]
        rcases s.Create req with ⟨resp, _ | err⟩ <;> rfl
    · simp [createBroker] at hne
  · rintro decode ⟨b, _ | err⟩ hne
    · cases hd : decode b with
      | error e => simp [createManyBrokers, hd] at hne
      | ok req =>
        refine ⟨req, rfl, rfl, ?_⟩
        simp only [createManyBrokers, hd]
        rcases s.CreateMany req with ⟨resp, _ | err⟩ <;> rfl
    · simp [createManyBrokers] at hne
  · rintro decode ⟨b, _ | err⟩ hne
    · cases hd : decode b with
      | error e => simp [updateBroker, hd] at hne
      | ok req =>
        refine ⟨req, rfl, rfl, ?_⟩
        simp only [updateBroker, hd]
        rcases s.Update id req with _ | err <;> rfl
    · simp [updateBroker] at hne

/-- C22 at the invalid bodies of the handler tests. -/
theorem handlers_decode_before_service_witness :
    createBroker acceptingService (rejectAll CreateBrokerReq) (invalidBody, none) =
      (.error invalidBody
        (.plain "invalid character 'i' looking for beginning of value"), []) ∧
    updateBroker acceptingService (rejectAll UpdateBrokerReq) "test-id"
        (invalidBody, none) =
      (.error invalidBody
        (.plain "invalid character 'i' looking for beginning of value"), []) :=
  ⟨(handlers_decode_before_service acceptingService invalidBody "test-id").1
      (rejectAll CreateBrokerReq) _ rfl,
    (handlers_decode_before_service acceptingService invalidBody "test-id").2.2.1
      (rejectAll UpdateBrokerReq) _ rfl⟩

/-! ## The broker service: lookup by slug and the frame of update -/

/-- C28: `brokerService.GetBySlug` never indexes an empty list. Under the
postcondition of the repository's `Get` (a nil error comes with a non-empty list),
which `brokerRepository.Get` fulfils, the access to the first result is in range: the
method returns, with the first returned entity converted to a response and a nil
error; when the repository reports a NonExistent error it returns a NonExistent error
with message `slug <slug> not found`. -/
theorem brokerService_GetBySlug_in_range (repo : BrokerRepository) (slug : String)
    (hpost : ∀ l, repo.Get [("slug", .str slug)] none none = (l, none) → l ≠ []) :
    (∃ out, brokerService.GetBySlug repo slug = some out ∧
      out.2 = [.get [("slug", .str slug)] none none] ∧
      (∀ l, repo.Get [("slug", .str slug)] none none = (l, none) →
        ∃ first, l.head? = some first ∧ out.1 = (first.toResp, none)) ∧
      (∀ l e, repo.Get [("slug", .str slug)] none none = (l, some e) → e.isNonExistent = true →
        ∃ err, out.1.2 = some err ∧ err.isNonExistent = true ∧
          err.message = "slug " ++ slug ++ " not found")) ∧
    (∀ (db : SqlDB) (filter : Filter) (skip take : Option Int) (l : List Broker),
      (brokerRepository.Get db filter skip take).1 = (l, none) → l ≠ []) := by
  constructor
  · unfold brokerService.GetBySlug
    dsimp only
    rcases hq : repo.Get [("slug", .str slug)] none none with ⟨l, _ | e⟩
    · cases l with
      | nil => exact absurd rfl (hpost [] hq)
      | cons b bs =>
        refine ⟨((b.toResp, none), [.get [("slug", .str slug)] none none]), by simp, rfl, ?_, ?_⟩
        · intro l hl
          cases hl
          exact ⟨b, rfl, rfl⟩
        · intro l e he
          cases he
    · by_cases hne : e.isNonExistent = true
      · refine ⟨((BrokerResp.zero, some (.nonExistent (.plain ("slug " ++ slug ++ " not found")))),
          [.get [("slug", .str slug)] none none]), by simp [hne], rfl, ?_, ?_⟩
        · intro l hl
          cases hl
        · intro l e2 he _
          exact ⟨_, rfl, rfl, rfl⟩
      · refine ⟨((BrokerResp.zero, some e), [.get [("slug", .str slug)] none none]),
          by simp [hne], rfl, ?_, ?_⟩
        · intro l hl
          cases hl
        · intro l e2 he he2
          cases he
          exact absurd he2 hne
  · intro db filter skip take l h
    unfold brokerRepository.Get at h
    simp only at h
    generalize brokerRepository.getQuery (brokerRepository.whereClause filter skip take) = q at h
    cases hq : db.query q with
    | error e => simp [hq] at h
    | ok rows =>
      rw [hq] at h
      dsimp only at h
      cases hs : brokerRepository.scanRows rows [] with
      | error e => simp [hs] at h
      | ok brokers =>
        rw [hs] at h
        dsimp only at h
        by_cases hlen : brokers.length < 1
        · simp [hlen] at h
        · simp only [hlen, if_false, Prod.mk.injEq, and_true] at h
          subst h
          intro hnil
          simp [hnil] at hlen

/-- C28 at a repository that holds one broker. -/
theorem brokerService_GetBySlug_in_range_witness :
    ∃ out, brokerService.GetBySlug singleRepository "test" = some out ∧
      out.2 = [.get [("slug", .str "test")] none none] ∧
      (∀ l, singleRepository.Get [("slug", .str "test")] none none = (l, none) →
        ∃ first, l.head? = some first ∧ out.1 = (first.toResp, none)) ∧
      (∀ l e, singleRepository.Get [("slug", .str "test")] none none = (l, some e) →
        e.isNonExistent = true →
        ∃ err, out.1.2 = some err ∧ err.isNonExistent = true ∧
          err.message = "slug " ++ "test" ++ " not found") :=
  (brokerService_GetBySlug_in_range singleRepository "test" (by
    intro l hl
    cases hl
    simp)).1

/-- C29: when the broker exists, `brokerService.Update` hands the repository the
stored entity with the name and the description of the request and the clock reading
as update time; the broker id, the external id, the slug and the creation time are the
stored values. The calls are the lookup and this one update, and the result of the
repository is returned unchanged. -/
theorem brokerService_Update_frame (repo : BrokerRepository) (now : Time) (ID : String)
    (req : UpdateBrokerReq) (stored : Broker) (hget : repo.GetByID ID = .ok stored) :
    ∃ entity, (brokerService.Update repo now ID req).2 = [.getByID ID, .update ID entity] ∧
      (brokerService.Update repo now ID req).1 = repo.Update ID entity ∧
      entity.Name = req.Name ∧ entity.Description = req.Description ∧ entity.UpdatedAt = now ∧
      entity.BrokerID = stored.BrokerID ∧ entity.Extid = stored.Extid ∧
      entity.Slug = stored.Slug ∧ entity.CreatedAt = stored.CreatedAt ∧
      entity = { stored with Name := req.Name, Description := req.Description, UpdatedAt := now } := by
  refine ⟨{ stored with Name := req.Name, Description := req.Description, UpdatedAt := now },
    ?_, ?_, rfl, rfl, rfl, rfl, rfl, rfl, rfl, rfl⟩
  · unfold brokerService.Update brokerService.GetByID
    rw [hget]
    by_cases h1 : req.Name = stored.Name <;> by_cases h2 : req.Description = stored.Description <;>
      simp [h1, h2, Broker.toResp, BrokerResp.toEntity]
  · unfold brokerService.Update brokerService.GetByID
    rw [hget]
    by_cases h1 : req.Name = stored.Name <;> by_cases h2 : req.Description = stored.Description <;>
      simp [h1, h2, Broker.toResp, BrokerResp.toEntity]

/-- C29 at the stored broker of the examples and a request that changes name and description. -/
theorem brokerService_Update_frame_witness :
    ∃ entity, (brokerService.Update singleRepository ⟨9⟩ "test-id" validUpdateReq).2 =
        [.getByID "test-id", .update "test-id" entity] ∧
      (brokerService.Update singleRepository ⟨9⟩ "test-id" validUpdateReq).1 =
        singleRepository.Update "test-id" entity ∧
      entity.Name = validUpdateReq.Name ∧ entity.Description = validUpdateReq.Description ∧
      entity.UpdatedAt = ⟨9⟩ ∧
      entity.BrokerID = storedBroker.BrokerID ∧ entity.Extid = storedBroker.Extid ∧
      entity.Slug = storedBroker.Slug ∧ entity.CreatedAt = storedBroker.CreatedAt ∧
      entity =
        { storedBroker with
          Name := validUpdateReq.Name, Description := validUpdateReq.Description, UpdatedAt := ⟨9⟩ } :=
  brokerService_Update_frame singleRepository ⟨9⟩ "test-id" validUpdateReq storedBroker rfl

/-! ## Create and update validators of the remaining models -/

theorem validatorsAgree_same (msgs : List String) :
    validatorsAgree (validationResult msgs) (validationResult msgs) := by
  unfold validatorsAgree
  cases h : validationResult msgs with
  | none => exact Or.inl ⟨rfl, rfl⟩
  | some e =>
    exact Or.inr ⟨e, e, rfl, rfl, validationResult_isValidation _ _ h,
      validationResult_isValidation _ _ h, rfl⟩

/-- C30: for each of crypto-currency, currency, dividend, portfolio, stock and
transaction, the create and the update validator agree: for every assignment of the
validated fields, the two return the same result, so either both return no error or
both return a validation error with the same message. -/
theorem create_update_validators_agree :
    (∀ (c : CreateCryptoCurrencyReq) (u : UpdateCryptoCurrencyReq),
      c.Symbol = u.Symbol → c.Name = u.Name →
      c.Validate = u.Validate ∧ validatorsAgree c.Validate u.Validate) ∧
    (∀ (c : CreateCurrencyReq) (u : UpdateCurrencyReq),
      c.Symbol = u.Symbol → c.Code = u.Code → c.Name = u.Name →
      c.Validate = u.Validate ∧ validatorsAgree c.Validate u.Validate) ∧
    (∀ (c : CreateDividendReq) (u : UpdateDividendReq),
      c.StockID = u.StockID → c.DividendPerShare = u.DividendPerShare →
      c.DividendDate = u.DividendDate →
      c.Validate = u.Validate ∧ validatorsAgree c.Validate u.Validate) ∧
    (∀ (c : CreatePortfolioReq) (u : UpdatePortfolioReq),
      c.Userid = u.Userid → c.Name = u.Name → c.Extid = u.Extid →
      c.TaxCountryID = u.TaxCountryID → c.FinancialYear = u.FinancialYear →
      c.PerformenceCalculation = u.PerformenceCalculation →
      c.Validate = u.Validate ∧ validatorsAgree c.Validate u.Validate) ∧
    (∀ (c : CreateStockReq) (u : UpdateStockReq),
      c.HoldingID = u.HoldingID → c.Extid = u.Extid → c.TickerSymbol = u.TickerSymbol →
      c.CompanyName = u.CompanyName →
      c.Validate = u.Validate ∧ validatorsAgree c.Validate u.Validate) ∧
    (∀ (c : CreateTransactionReq) (u : UpdateTransactionReq),
      c.StockID = u.StockID → c.CryptocurrencyID = u.CryptocurrencyID →
      c.Quantity = u.Quantity → c.TransactionPrice = u.TransactionPrice →
      c.TransactionDate = u.TransactionDate →
      c.Validate = u.Validate ∧ validatorsAgree c.Validate u.Validate) := by
  refine ⟨?_, ?_, ?_, ?_, ?_, ?_⟩
  · intro c u h1 h2
    have hm : c.msgs = u.msgs := by
      simp only [CreateCryptoCurrencyReq.msgs, UpdateCryptoCurrencyReq.msgs, h1, h2]
    unfold CreateCryptoCurrencyReq.Validate UpdateCryptoCurrencyReq.Validate
    rw [hm]
    exact ⟨rfl, validatorsAgree_same _⟩
  · intro c u h1 h2 h3
    have hm : c.msgs = u.msgs := by
      simp only [CreateCurrencyReq.msgs, UpdateCurrencyReq.msgs, h1, h2, h3]
    unfold CreateCurrencyReq.Validate UpdateCurrencyReq.Validate
    rw [hm]
    exact ⟨rfl, validatorsAgree_same _⟩
  · intro c u h1 h2 h3
    have hm : c.msgs = u.msgs := by
      simp only [CreateDividendReq.msgs, UpdateDividendReq.msgs, h1, h2, h3]
    unfold CreateDividendReq.Validate UpdateDividendReq.Validate
    rw [hm]
    exact ⟨rfl, validatorsAgree_same _⟩
  · intro c u h1 h2 h3 h4 h5 h6
    have hm : c.msgs = u.msgs := by
      simp only [CreatePortfolioReq.msgs, UpdatePortfolioReq.msgs, h1, h2, h3, h4, h5, h6]
    unfold CreatePortfolioReq.Validate UpdatePortfolioReq.Validate
    rw [hm]
    exact ⟨rfl, validatorsAgree_same _⟩
  · intro c u h1 h2 h3 h4
    have hm : c.msgs = u.msgs := by
      simp only [CreateStockReq.msgs, UpdateStockReq.msgs, h1, h2, h3, h4]
    unfold CreateStockReq.Validate UpdateStockReq.Validate
    rw [hm]
    exact ⟨rfl, validatorsAgree_same _⟩
  · intro c u h1 h2 h3 h4 h5
    have hm : c.msgs = u.msgs := by
      simp only [CreateTransactionReq.msgs, UpdateTransactionReq.msgs, h1, h2, h3, h4, h5]
    unfold CreateTransactionReq.Validate UpdateTransactionReq.Validate
    rw [hm]
    exact ⟨rfl, validatorsAgree_same _⟩

/-- C30 at the zero-valued portfolio requests, which both validators reject with the same text. -/
theorem create_update_validators_agree_witness :
    CreatePortfolioReq.zero.Validate = UpdatePortfolioReq.zero.Validate ∧
      validatorsAgree CreatePortfolioReq.zero.Validate UpdatePortfolioReq.zero.Validate :=
  create_update_validators_agree.2.2.2.1 CreatePortfolioReq.zero UpdatePortfolioReq.zero
    rfl rfl rfl rfl rfl rfl

set_option maxRecDepth 100000 in
/-- The portfolio validators on the zero-valued requests: the six messages of the model tests. -/
theorem portfolio_validators_zero :
    CreatePortfolioReq.zero.Validate = some (.validation (.plain
      "user id cannot be empty | name cannot be empty | external id cannot be empty | tax country id cannot be empty | financial year cannot be empty | performance calculation cannot be zero")) ∧
    UpdatePortfolioReq.zero.Validate = CreatePortfolioReq.zero.Validate := by
  decide

/-! ## Statements of the repositories -/

set_option maxRecDepth 100000 in
/-- C23, evaluated: the INSERT of `brokerRepository.Create` lists six columns and
binds six arguments but has the seven placeholders `$1` to `$7`; the same holds for
`brokerRepository.CreateMany`, and `Create` of the currency, dividend and
crypto-currency repositories has six placeholders for five columns and five arguments.
`CreateMany` of these three repositories and `Create` of the stock repository are well
formed. -/
theorem insert_statements_well_formedness :
    insertColumns (brokerRepository.createStatement storedBroker).text =
      ["extid", "name", "description", "slug", "created_at", "updated_at"] ∧
    placeholders (brokerRepository.createStatement storedBroker).text = [1, 2, 3, 4, 5, 6, 7] ∧
    (brokerRepository.createStatement storedBroker).args.length = 6 ∧
    wellFormedInsert (brokerRepository.createStatement storedBroker) = false ∧
    wellFormedInsert (brokerRepository.createManyStatement storedBroker) = false ∧
    wellFormedInsert (currencyRepository.createStatement currencyOne) = false ∧
    wellFormedInsert (dividendRepository.createStatement dividendOne) = false ∧
    wellFormedInsert (cryptoCurrencyRepository.createStatement cryptoOne) = false ∧
    wellFormedInsert (currencyRepository.createManyStatement currencyOne) = true ∧
    wellFormedInsert (dividendRepository.createManyStatement dividendOne) = true ∧
    wellFormedInsert (cryptoCurrencyRepository.createManyStatement cryptoOne) = true ∧
    wellFormedInsert (stockRepository.createStatement stockOne) = true := by
  decide

set_option maxRecDepth 100000 in
/-- C24, evaluated: the UPDATE of `transactionRepository.Update` uses `$5` twice and
never `$7` for its seven arguments, and compares the key with `$5`, which is bound to
the transaction date and not to the id; the UPDATE of `stockRepository.Update` has six
placeholders for seven arguments, binds `ticker_symbol` to the holding id and compares
the key with `$6`, which is bound to the update time; the SET list of
`holdingRepository.Update` names the column `exhcange_rate` and has an empty item. The
UPDATE of `brokerRepository.Update` is well formed. -/
theorem update_statements_well_formedness :
    placeholders (transactionRepository.updateStatement "t1" transactionOne).text =
      [1, 2, 3, 4, 5, 6, 5] ∧
    (transactionRepository.updateStatement "t1" transactionOne).args.length = 7 ∧
    whereAssignment (transactionRepository.updateStatement "t1" transactionOne).text =
      some ("transactionid", 5) ∧
    boundTo (transactionRepository.updateStatement "t1" transactionOne)
        (whereAssignment (transactionRepository.updateStatement "t1" transactionOne).text) =
      some (.time transactionOne.TransactionDate) ∧
    wellFormedUpdate (transactionRepository.updateStatement "t1" transactionOne) = false ∧
    placeholders (stockRepository.updateStatement "s1" stockOne).text = [1, 2, 3, 4, 5, 6] ∧
    (stockRepository.updateStatement "s1" stockOne).args.length = 7 ∧
    boundTo (stockRepository.updateStatement "s1" stockOne) (some ("ticker_symbol", 2)) =
      some (.str stockOne.HoldingID) ∧
    some ("ticker_symbol", 2) ∈ setAssignments (stockRepository.updateStatement "s1" stockOne).text ∧
    boundTo (stockRepository.updateStatement "s1" stockOne)
        (whereAssignment (stockRepository.updateStatement "s1" stockOne).text) =
      some (.time stockOne.UpdatedAt) ∧
    wellFormedUpdate (stockRepository.updateStatement "s1" stockOne) = false ∧
    some ("exhcange_rate", 9) ∈
      setAssignments (holdingRepository.updateStatement "h1" holdingOne).text ∧
    none ∈ setAssignments (holdingRepository.updateStatement "h1" holdingOne).text ∧
    wellFormedUpdate (holdingRepository.updateStatement "h1" holdingOne) = false ∧
    wellFormedUpdate (brokerRepository.updateStatement "test-id" storedBroker) = true := by
  decide

set_option maxRecDepth 100000 in
/-- C25, evaluated: for a crypto-currency with name `Bitcoin` and holding id `h1`,
the INSERT of `Create` binds `Bitcoin` to the column `name` and `h1` to `holdingid`,
while the INSERT of `CreateMany` lists the columns in the order `holdingid, name` with
the same arguments, and so binds `Bitcoin` to `holdingid` and `h1` to `name`. -/
theorem cryptoCurrency_createMany_binding_differs :
    insertValue (cryptoCurrencyRepository.createStatement cryptoOne) "name" =
      some (.str cryptoOne.Name) ∧
    insertValue (cryptoCurrencyRepository.createStatement cryptoOne) "holdingid" =
      some (.str cryptoOne.HoldingID) ∧
    insertValue (cryptoCurrencyRepository.createManyStatement cryptoOne) "name" =
      some (.str cryptoOne.HoldingID) ∧
    insertValue (cryptoCurrencyRepository.createManyStatement cryptoOne) "holdingid" =
      some (.str cryptoOne.Name) ∧
    insertValue (cryptoCurrencyRepository.createManyStatement cryptoOne) "symbol" =
      some (.str cryptoOne.Symbol) ∧
    insertBinding (cryptoCurrencyRepository.createManyStatement cryptoOne) ≠
      insertBinding (cryptoCurrencyRepository.createStatement cryptoOne) ∧
    cryptoOne.Name = "Bitcoin" ∧ cryptoOne.HoldingID = "h1" := by
  decide

/-- C26, evaluated: for every row, `GetBySymbol` scans the column `holdingid` into
`CryptoCurrencyID` and leaves `HoldingID` empty, while `GetByID` scans
`crypto_currencyid` into `CryptoCurrencyID` and `holdingid` into `HoldingID`; for the
row with ids `c1` and `h1` the two methods return different entities. -/
theorem cryptoCurrency_GetBySymbol_scan_differs :
    (∀ r : CryptoRow,
      (cryptoCurrencyRepository.scanBySymbol r).CryptoCurrencyID = r.holdingid ∧
      (cryptoCurrencyRepository.scanBySymbol r).HoldingID = "" ∧
      (cryptoCurrencyRepository.scanByID r).CryptoCurrencyID = r.crypto_currencyid ∧
      (cryptoCurrencyRepository.scanByID r).HoldingID = r.holdingid) ∧
    cryptoCurrencyRepository.GetByID cryptoConn "c1" =
      (some { CryptoCurrencyID := "c1", HoldingID := "h1", Symbol := "BTC", Name := "Bitcoin",
              CreatedAt := ⟨5⟩, UpdatedAt := ⟨8⟩ }, none) ∧
    cryptoCurrencyRepository.GetBySymbol cryptoConn "BTC" =
      (some { CryptoCurrencyID := "h1", HoldingID := "", Symbol := "BTC", Name := "Bitcoin",
              CreatedAt := ⟨5⟩, UpdatedAt := ⟨8⟩ }, none) ∧
    cryptoCurrencyRepository.GetBySymbol cryptoConn "BTC" ≠
      cryptoCurrencyRepository.GetByID cryptoConn "c1" := by
  refine ⟨fun r => ⟨rfl, rfl, rfl, rfl⟩, by decide, by decide, by decide⟩

/-! ## The structure of the query text of Get -/

theorem skeleton_quoteFree_outside (t r : List Char) (ht : quote ∉ t) :
    sqlSkeletonAux false (t ++ r) = t ++ sqlSkeletonAux false r := by
  induction t with
  | nil => rfl
  | cons c cs ih =>
    have hc : c ≠ quote := fun h => ht (h ▸ List.mem_cons_self _ _)
    have hcs : quote ∉ cs := fun h => ht (List.mem_cons_of_mem _ h)
    show sqlSkeletonAux false (c :: (cs ++ r)) = c :: (cs ++ sqlSkeletonAux false r)
    simp only [sqlSkeletonAux, hc, if_false, ih hcs]

theorem skeleton_quoteFree_inside (t r : List Char) (ht : quote ∉ t) :
    sqlSkeletonAux true (t ++ r) = sqlSkeletonAux true r := by
  induction t with
  | nil => rfl
  | cons c cs ih =>
    have hc : c ≠ quote := fun h => ht (h ▸ List.mem_cons_self _ _)
    have hcs : quote ∉ cs := fun h => ht (List.mem_cons_of_mem _ h)
    show sqlSkeletonAux true (c :: (cs ++ r)) = sqlSkeletonAux true r
    simp only [sqlSkeletonAux, hc, if_false, ih hcs]

theorem skeleton_literal (v r : List Char) (hv : quote ∉ v) :
    sqlSkeletonAux false (quote :: (v ++ quote :: r)) = quote :: quote :: sqlSkeletonAux false r := by
  simp only [sqlSkeletonAux, if_true, skeleton_quoteFree_inside v _ hv]

theorem literals_quoteFree_outside (t r : List Char) (ht : quote ∉ t) :
    sqlLiteralsAux none (t ++ r) = sqlLiteralsAux none r := by
  induction t with
  | nil => rfl
  | cons c cs ih =>
    have hc : c ≠ quote := fun h => ht (h ▸ List.mem_cons_self _ _)
    have hcs : quote ∉ cs := fun h => ht (List.mem_cons_of_mem _ h)
    show sqlLiteralsAux none (c :: (cs ++ r)) = sqlLiteralsAux none r
    simp only [sqlLiteralsAux, hc, if_false, ih hcs]

theorem literals_quoteFree_inside (v r cur : List Char) (hv : quote ∉ v) :
    sqlLiteralsAux (some cur) (v ++ quote :: r) = String.mk (cur ++ v) :: sqlLiteralsAux none r := by
  induction v generalizing cur with
  | nil => simp [sqlLiteralsAux]
  | cons c cs ih =>
    have hc : c ≠ quote := fun h => hv (h ▸ List.mem_cons_self _ _)
    have hcs : quote ∉ cs := fun h => hv (List.mem_cons_of_mem _ h)
    show sqlLiteralsAux (some cur) (c :: (cs ++ quote :: r)) = _
    simp only [sqlLiteralsAux, hc, if_false, ih _ hcs, List.append_assoc, List.singleton_append]

theorem literals_literal (v r : List Char) (hv : quote ∉ v) :
    sqlLiteralsAux none (quote :: (v ++ quote :: r)) = String.mk v :: sqlLiteralsAux none r := by
  simp only [sqlLiteralsAux, if_true, literals_quoteFree_inside v r [] hv, List.nil_append]

theorem digitChar_ne_quote (n : Nat) (hn : n < 10) : Nat.digitChar n ≠ quote := by
  interval_cases n <;> decide

theorem toDigitsCore_quoteFree (fuel n : Nat) (ds : List Char) (hds : quote ∉ ds) :
    quote ∉ Nat.toDigitsCore 10 fuel n ds := by
  induction fuel generalizing n ds with
  | zero => simpa [Nat.toDigitsCore] using hds
  | succ fuel ih =>
    have hcons : quote ∉ Nat.digitChar (n % 10) :: ds := by
      intro h
      rcases List.mem_cons.mp h with h | h
      · exact digitChar_ne_quote _ (Nat.mod_lt _ (by decide)) h.symm
      · exact hds h
    unfold Nat.toDigitsCore
    dsimp only
    split_ifs
    · exact hcons
    · exact ih _ _ hcons

theorem quoteFree_toString_nat (n : Nat) : quote ∉ (toString n).toList := by
  show quote ∉ (Nat.repr n).toList
  unfold Nat.repr Nat.toDigits
  exact toDigitsCore_quoteFree _ _ _ (by simp)

theorem quoteFree_toString_int (i : Int) : quote ∉ (toString i).toList := by
  cases i with
  | ofNat m => exact quoteFree_toString_nat m
  | negSucc m =>
    show quote ∉ ("-" ++ toString (Nat.succ m)).toList
    rw [String.toList, String.data_append]
    intro h
    rcases List.mem_append.mp h with h | h
    · revert h
      decide
    · exact quoteFree_toString_nat _ h

theorem whereStep_toList_empty (e : String × FilterValue) :
    (brokerRepository.whereStep "" e).toList =
      "WHERE ".toList ++ e.1.toList ++ " = ".toList ++ quote :: (e.2.format.toList ++ [quote]) := by
  simp only [brokerRepository.whereStep, if_true, String.toList, String.data_append]
  simp only [List.append_assoc]
  rfl

theorem whereStep_toList_nonempty (w : String) (hw : w ≠ "") (e : String × FilterValue) :
    (brokerRepository.whereStep w e).toList =
      w.toList ++ (" AND ".toList ++ e.1.toList ++ " = ".toList ++
        quote :: (e.2.format.toList ++ [quote])) := by
  simp only [brokerRepository.whereStep, hw, if_false, String.toList, String.data_append]
  simp only [List.append_assoc]
  rfl

theorem whereStep_ne_empty (w : String) (e : String × FilterValue) :
    brokerRepository.whereStep w e ≠ "" := by
  intro h
  have h2 := congrArg String.length h
  simp only [brokerRepository.whereStep, String.length_append] at h2
  have h3 : "'".length = 1 := by decide
  have h4 : "".length = 0 := by decide
  omega

/-- The reading of a text that starts and ends outside a literal: its structure
and its literals, whatever follows. -/
theorem foldl_whereStep_structure (f : Filter) (w : String) (K : List Char) (V : List String)
    (hw : w ≠ "")
    (hK : ∀ r, sqlSkeletonAux false (w.toList ++ r) = K ++ sqlSkeletonAux false r)
    (hV : ∀ r, sqlLiteralsAux none (w.toList ++ r) = V ++ sqlLiteralsAux none r)
    (hf : ∀ e ∈ f, quoteFree e.1 ∧ quoteFree e.2.format) :
    (∀ r, sqlSkeletonAux false ((f.foldl brokerRepository.whereStep w).toList ++ r) =
      K ++ moreConditionsSkeleton (f.map Prod.fst) ++ sqlSkeletonAux false r) ∧
    (∀ r, sqlLiteralsAux none ((f.foldl brokerRepository.whereStep w).toList ++ r) =
      V ++ f.map (fun e => e.2.format) ++ sqlLiteralsAux none r) := by
  induction f generalizing w K V with
  | nil =>
    simp only [List.foldl_nil, List.map_nil, moreConditionsSkeleton, List.append_nil]
    exact ⟨hK, hV⟩
  | cons e es ih =>
    obtain ⟨hk, hv⟩ := hf e (List.mem_cons_self _ _)
    have hes : ∀ x ∈ es, quoteFree x.1 ∧ quoteFree x.2.format :=
      fun x hx => hf x (List.mem_cons_of_mem _ hx)
    have hand : quote ∉ " AND ".toList := by decide
    have heq : quote ∉ " = ".toList := by decide
    have hpre : quote ∉ " AND ".toList ++ e.1.toList ++ " = ".toList := by
      intro h
      rcases List.mem_append.mp h with h | h
      · rcases List.mem_append.mp h with h | h
        · exact hand h
        · exact hk h
      · exact heq h
    have hK2 : ∀ r, sqlSkeletonAux false ((brokerRepository.whereStep w e).toList ++ r) =
        (K ++ (" AND ".toList ++ e.1.toList ++ " = ".toList ++ [quote, quote])) ++
          sqlSkeletonAux false r := by
      intro r
      rw [whereStep_toList_nonempty w hw e, List.append_assoc, hK]
      have : (" AND ".toList ++ e.1.toList ++ " = ".toList ++
            quote :: (e.2.format.toList ++ [quote])) ++ r =
          (" AND ".toList ++ e.1.toList ++ " = ".toList) ++
            quote :: (e.2.format.toList ++ quote :: r) := by
        simp only [List.append_assoc, List.cons_append, List.nil_append]
      rw [this, skeleton_quoteFree_outside _ _ hpre, skeleton_literal _ _ hv]
      simp only [List.append_assoc, List.cons_append, List.nil_append]
    have hV2 : ∀ r, sqlLiteralsAux none ((brokerRepository.whereStep w e).toList ++ r) =
        (V ++ [e.2.format]) ++ sqlLiteralsAux none r := by
      intro r
      rw [whereStep_toList_nonempty w hw e, List.append_assoc, hV]
      have : (" AND ".toList ++ e.1.toList ++ " = ".toList ++
            quote :: (e.2.format.toList ++ [quote])) ++ r =
          (" AND ".toList ++ e.1.toList ++ " = ".toList) ++
            quote :: (e.2.format.toList ++ quote :: r) := by
        simp only [List.append_assoc, List.cons_append, List.nil_append]
      rw [this, literals_quoteFree_outside _ _ hpre, literals_literal _ _ hv]
      simp only [List.append_assoc, List.cons_append, List.nil_append]
      rfl
    obtain ⟨h1, h2⟩ := ih (brokerRepository.whereStep w e) _ _ (whereStep_ne_empty w e) hK2 hV2 hes
    constructor
    · intro r
      rw [List.foldl_cons, h1 r]
      simp only [List.map_cons, moreConditionsSkeleton, List.append_assoc]
    · intro r
      rw [List.foldl_cons, h2 r]
      simp only [List.map_cons, List.append_assoc, List.singleton_append]

theorem where_structure (f : Filter) (hf : ∀ e ∈ f, quoteFree e.1 ∧ quoteFree e.2.format) :
    (∀ r, sqlSkeletonAux false ((f.foldl brokerRepository.whereStep "").toList ++ r) =
      whereSkeleton (f.map Prod.fst) ++ sqlSkeletonAux false r) ∧
    (∀ r, sqlLiteralsAux none ((f.foldl brokerRepository.whereStep "").toList ++ r) =
      f.map (fun e => e.2.format) ++ sqlLiteralsAux none r) := by
  cases f with
  | nil =>
    simp only [List.foldl_nil, List.map_nil, whereSkeleton, List.nil_append]
    exact ⟨fun r => rfl, fun r => rfl⟩
  | cons e es =>
    obtain ⟨hk, hv⟩ := hf e (List.mem_cons_self _ _)
    have hes : ∀ x ∈ es, quoteFree x.1 ∧ quoteFree x.2.format :=
      fun x hx => hf x (List.mem_cons_of_mem _ hx)
    have hwhere : quote ∉ "WHERE ".toList := by decide
    have heq : quote ∉ " = ".toList := by decide
    have hpre : quote ∉ "WHERE ".toList ++ e.1.toList ++ " = ".toList := by
      intro h
      rcases List.mem_append.mp h with h | h
      · rcases List.mem_append.mp h with h | h
        · exact hwhere h
        · exact hk h
      · exact heq h
    have hsplit : ∀ r, (brokerRepository.whereStep "" e).toList ++ r =
        ("WHERE ".toList ++ e.1.toList ++ " = ".toList) ++
          quote :: (e.2.format.toList ++ quote :: r) := by
      intro r
      rw [whereStep_toList_empty]
      simp only [List.append_assoc, List.cons_append, List.nil_append]
    have hK : ∀ r, sqlSkeletonAux false ((brokerRepository.whereStep "" e).toList ++ r) =
        ("WHERE ".toList ++ e.1.toList ++ " = ".toList ++ [quote, quote]) ++
          sqlSkeletonAux false r := by
      intro r
      rw [hsplit, skeleton_quoteFree_outside _ _ hpre, skeleton_literal _ _ hv]
      simp only [List.append_assoc, List.cons_append, List.nil_append]
    have hV : ∀ r, sqlLiteralsAux none ((brokerRepository.whereStep "" e).toList ++ r) =
        [e.2.format] ++ sqlLiteralsAux none r := by
      intro r
      rw [hsplit, literals_quoteFree_outside _ _ hpre, literals_literal _ _ hv]
      rfl
    obtain ⟨h1, h2⟩ :=
      foldl_whereStep_structure es (brokerRepository.whereStep "" e) _ _
        (whereStep_ne_empty "" e) hK hV hes
    constructor
    · intro r
      rw [List.foldl_cons, h1 r]
      simp only [List.map_cons, whereSkeleton, List.append_assoc]
    · intro r
      rw [List.foldl_cons, h2 r]
      simp only [List.map_cons, List.append_assoc, List.singleton_append]

theorem whereClause_eq_append (f : Filter) (skip take : Option Int) :
    brokerRepository.whereClause f skip take =
      f.foldl brokerRepository.whereStep "" ++ offsetLimit skip take := by
  unfold brokerRepository.whereClause offsetLimit
  cases skip <;> cases take <;> simp [String.append_assoc]

theorem toList_append (a b : String) : (a ++ b).toList = a.toList ++ b.toList :=
  String.data_append a b

theorem offsetLimit_quoteFree (skip take : Option Int) :
    quote ∉ (offsetLimit skip take).toList ++ ";\n\t".toList := by
  have hoff : quote ∉ " OFFSET ".toList := by decide
  have hlim : quote ∉ " LIMIT ".toList := by decide
  have htail : quote ∉ ";\n\t".toList := by decide
  have hempty : quote ∉ "".toList := by decide
  unfold offsetLimit
  cases skip with
  | none =>
    cases take with
    | none =>
      simp only [toList_append, List.mem_append, not_or]
      exact ⟨⟨hempty, hempty⟩, htail⟩
    | some t =>
      simp only [toList_append, List.mem_append, not_or]
      exact ⟨⟨hempty, hlim, quoteFree_toString_int t⟩, htail⟩
  | some s =>
    cases take with
    | none =>
      simp only [toList_append, List.mem_append, not_or]
      exact ⟨⟨⟨hoff, quoteFree_toString_int s⟩, hempty⟩, htail⟩
    | some t =>
      simp only [toList_append, List.mem_append, not_or]
      exact ⟨⟨⟨hoff, quoteFree_toString_int s⟩, hlim, quoteFree_toString_int t⟩, htail⟩

theorem getQuery_toList (f : Filter) (skip take : Option Int) :
    (brokerRepository.getQuery (brokerRepository.whereClause f skip take)).toList =
      brokerRepository.getQueryHead.toList ++
        ((f.foldl brokerRepository.whereStep "").toList ++
          ((offsetLimit skip take).toList ++ ";\n\t".toList)) := by
  rw [whereClause_eq_append]
  unfold brokerRepository.getQuery brokerRepository.getQueryHead
  simp only [String.toList, String.data_append, List.append_assoc]

theorem getQuery_structure (f : Filter) (skip take : Option Int)
    (hf : ∀ e ∈ f, quoteFree e.1 ∧ quoteFree e.2.format) :
    sqlSkeleton (brokerRepository.getQuery (brokerRepository.whereClause f skip take)) =
      String.mk (brokerRepository.getQueryHead.toList ++ (whereSkeleton (f.map Prod.fst) ++
        ((offsetLimit skip take).toList ++ ";\n\t".toList))) ∧
    sqlLiterals (brokerRepository.getQuery (brokerRepository.whereClause f skip take)) =
      f.map (fun e => e.2.format) := by
  have hhead : quote ∉ brokerRepository.getQueryHead.toList := by decide
  obtain ⟨h1, h2⟩ := where_structure f hf
  have htail := offsetLimit_quoteFree skip take
  constructor
  · unfold sqlSkeleton
    rw [getQuery_toList, skeleton_quoteFree_outside _ _ hhead, h1]
    have := skeleton_quoteFree_outside _ [] htail
    simp only [List.append_nil, sqlSkeletonAux] at this
    rw [this]
  · unfold sqlLiterals
    rw [getQuery_toList, literals_quoteFree_outside _ _ hhead, h2]
    have := literals_quoteFree_outside _ [] htail
    simp only [List.append_nil, sqlLiteralsAux] at this
    rw [this, List.append_nil]

set_option maxRecDepth 100000 in
/-- C27, evaluated: for the slug `a' OR 'a'='a`, `brokerService.GetBySlug` hands the
slug to `Get` unchanged, and the query text `Get` builds reads
`WHERE slug = 'a' OR 'a'='a'`: the value does not occupy one literal but spreads over
three, and the structure of the text differs from that of the query for the slug `a`,
which has the same key. The statement of `brokerRepository.GetBySlug`, which the
service does not call, holds the placeholder `$1` and no literal, so its text is the
same for every slug. -/
theorem brokerRepository_Get_value_changes_structure :
    (brokerService.GetBySlug emptyRepository injectedSlug).map (fun out => out.2) =
      some [.get [("slug", .str injectedSlug)] none none] ∧
    brokerRepository.getQuery (brokerRepository.whereClause [("slug", .str injectedSlug)] none none) =
      "\n\tSELECT brokerid, extid, name, description, slug, created_at, updated_at\n\t    FROM broker WHERE slug = 'a' OR 'a'='a';\n\t" ∧
    sqlSkeleton
        (brokerRepository.getQuery (brokerRepository.whereClause [("slug", .str "a")] none none)) ≠
      sqlSkeleton
        (brokerRepository.getQuery
          (brokerRepository.whereClause [("slug", .str injectedSlug)] none none)) ∧
    sqlLiterals
        (brokerRepository.getQuery (brokerRepository.whereClause [("slug", .str "a")] none none)) =
      ["a"] ∧
    sqlLiterals
        (brokerRepository.getQuery
          (brokerRepository.whereClause [("slug", .str injectedSlug)] none none)) =
      ["a", "a", "a"] ∧
    placeholders brokerRepository.getBySlugQuery = [1] ∧
    sqlLiterals brokerRepository.getBySlugQuery = [] := by
  decide

/-- Where the values hold no single quote the text of `brokerRepository.Get` is
regular: for every two filters with the same keys whose keys and values hold no
single quote, and every skip and take, the two query texts have the same structure
and the literals of each text are exactly its values, one literal per value in
order. -/
theorem getQuery_structure_quoteFree (f1 f2 : Filter) (skip take : Option Int)
    (hkeys : f1.map Prod.fst = f2.map Prod.fst)
    (h1 : ∀ e ∈ f1, quoteFree e.1 ∧ quoteFree e.2.format)
    (h2 : ∀ e ∈ f2, quoteFree e.1 ∧ quoteFree e.2.format) :
    sqlSkeleton (brokerRepository.getQuery (brokerRepository.whereClause f1 skip take)) =
      sqlSkeleton (brokerRepository.getQuery (brokerRepository.whereClause f2 skip take)) ∧
    sqlLiterals (brokerRepository.getQuery (brokerRepository.whereClause f1 skip take)) =
      f1.map (fun e => e.2.format) ∧
    sqlLiterals (brokerRepository.getQuery (brokerRepository.whereClause f2 skip take)) =
      f2.map (fun e => e.2.format) ∧
    (∀ s1 s2 : String, quoteFree s1 → quoteFree s2 →
      sqlSkeleton
          (brokerRepository.getQuery (brokerRepository.whereClause [("slug", .str s1)] none none)) =
        sqlSkeleton
          (brokerRepository.getQuery (brokerRepository.whereClause [("slug", .str s2)] none none)) ∧
      sqlLiterals
          (brokerRepository.getQuery (brokerRepository.whereClause [("slug", .str s1)] none none)) =
        [s1]) ∧
    (∀ (repo : BrokerRepository) (slug : String) (out : (BrokerResp × Option Error) × List RepoCall),
      brokerService.GetBySlug repo slug = some out →
        out.2 = [.get [("slug", .str slug)] none none]) := by
  have hslug : quoteFree "slug" := by decide
  refine ⟨?_, (getQuery_structure f1 skip take h1).2, (getQuery_structure f2 skip take h2).2, ?_, ?_⟩
  · rw [(getQuery_structure f1 skip take h1).1, (getQuery_structure f2 skip take h2).1, hkeys]
  · intro s1 s2 hs1 hs2
    have hq1 : ∀ e ∈ [(("slug", FilterValue.str s1) : String × FilterValue)],
        quoteFree e.1 ∧ quoteFree e.2.format := by
      intro e he
      rw [List.mem_singleton] at he
      subst he
      exact ⟨hslug, hs1⟩
    have hq2 : ∀ e ∈ [(("slug", FilterValue.str s2) : String × FilterValue)],
        quoteFree e.1 ∧ quoteFree e.2.format := by
      intro e he
      rw [List.mem_singleton] at he
      subst he
      exact ⟨hslug, hs2⟩
    constructor
    · rw [(getQuery_structure _ none none hq1).1, (getQuery_structure _ none none hq2).1]
      rfl
    · rw [(getQuery_structure _ none none hq1).2]
      rfl
  · intro repo slug out hout
    unfold brokerService.GetBySlug at hout
    dsimp only at hout
    rcases hq : repo.Get [("slug", .str slug)] none none with ⟨l, _ | e⟩
    · rw [hq] at hout
      dsimp only at hout
      cases l with
      | nil => simp at hout
      | cons b bs =>
        simp only [List.getElem?_cons_zero, Option.some.injEq] at hout
        rw [← hout]
    · rw [hq] at hout
      dsimp only at hout
      by_cases hne : e.isNonExistent = true
      · simp only [hne, if_true, Option.some.injEq] at hout
        rw [← hout]
      · simp only [hne, Bool.false_eq_true, if_false, Option.some.injEq] at hout
        rw [← hout]

set_option maxRecDepth 100000 in
/-- Two filters on slug and name with different values and no single quote, with an offset. -/
theorem getQuery_structure_quoteFree_witness :
    sqlSkeleton (brokerRepository.getQuery (brokerRepository.whereClause
        [("slug", .str "test-email"), ("name", .str "test-name")] (some 1) none)) =
      sqlSkeleton (brokerRepository.getQuery (brokerRepository.whereClause
        [("slug", .str "other slug"), ("name", .int 5)] (some 1) none)) ∧
    sqlLiterals (brokerRepository.getQuery (brokerRepository.whereClause
        [("slug", .str "test-email"), ("name", .str "test-name")] (some 1) none)) =
      ["test-email", "test-name"] :=
  ⟨(getQuery_structure_quoteFree [("slug", .str "test-email"), ("name", .str "test-name")]
      [("slug", .str "other slug"), ("name", .int 5)] (some 1) none rfl (by decide) (by decide)).1,
    (getQuery_structure_quoteFree [("slug", .str "test-email"), ("name", .str "test-name")]
      [("slug", .str "other slug"), ("name", .int 5)] (some 1) none rfl (by decide) (by decide)).2.1⟩

end Portflux
